import Mathlib

set_option linter.unnecessarySeqFocus false
set_option linter.unreachableTactic false
set_option linter.unusedTactic false

/-!
A verification development for the keystroke-statistics core: the durable
store (`KeystrokeRepository`, SQLite-backed), the ingestion buffer
(`KeystrokeBuffer`), and the aggregation/cache layer (`StatisticsService`).

Dates and times follow the ECMA-262 `Date` semantics the source relies on:
an instant is an integer count of milliseconds since the Unix epoch, local
time is UTC shifted by a fixed machine offset `tz` (milliseconds east of
UTC), and calendar fields are derived with the standard `DayFromYear` /
`MonthFromTime` / `MakeDay` arithmetic.  All divisions below are by
positive constants, for which Lean's `Int` division (`Int.ediv`) is
exactly the floor division ECMA prescribes.
-/

/-! ## ECMA-262 time model -/

def msPerDay : Int := 86400000

def msPerHour : Int := 3600000

/-- ECMA `InLeapYear`, as the usual divisibility test. -/
def isLeapYear (y : Int) : Bool := y % 4 == 0 && (y % 100 != 0 || y % 400 == 0)

/-- ECMA `DayFromYear(y)`: the day number of 1 January of year `y`. -/
def dayFromYear (y : Int) : Int :=
  365 * (y - 1970) + (y - 1969) / 4 - (y - 1901) / 100 + (y - 1601) / 400

/-- ECMA `DaysInYear(y)`. -/
def daysInYear (y : Int) : Int := if isLeapYear y then 366 else 365

/-- Upward search for `YearFromTime`: the largest `y` with
`dayFromYear y ≤ z`, starting from a year known to be at or below. -/
def yearFromDayUp : Nat → Int → Int → Int
  | 0, y, _ => y
  | fuel + 1, y, z => if dayFromYear (y + 1) ≤ z then yearFromDayUp fuel (y + 1) z else y

/-- Downward search companion of `yearFromDayUp`, for days before 1970. -/
def yearFromDayDown : Nat → Int → Int → Int
  | 0, y, _ => y
  | fuel + 1, y, z => if z < dayFromYear y then yearFromDayDown fuel (y - 1) z else y

/-- ECMA `YearFromTime`, on day numbers: the unique `y` with
`dayFromYear y ≤ z < dayFromYear (y+1)`. -/
def yearFromDay (z : Int) : Int :=
  if 0 ≤ z then yearFromDayUp (z.toNat / 365 + 1) 1970 z
  else yearFromDayDown ((-z).toNat / 365 + 2) 1970 z

/-- Day of year on which month `mn` (0-based) starts; `ilp` is 1 in a leap
year and 0 otherwise.  This is the table behind ECMA `MonthFromTime`. -/
def monthStart (mn ilp : Int) : Int :=
  if mn = 0 then 0 else if mn = 1 then 31 else if mn = 2 then 59 + ilp
  else if mn = 3 then 90 + ilp else if mn = 4 then 120 + ilp else if mn = 5 then 151 + ilp
  else if mn = 6 then 181 + ilp else if mn = 7 then 212 + ilp else if mn = 8 then 243 + ilp
  else if mn = 9 then 273 + ilp else if mn = 10 then 304 + ilp else 334 + ilp

/-- ECMA `MonthFromTime` on a day-within-year `dwy`, 0-based month. -/
def monthIdxFromDwy (dwy ilp : Int) : Int :=
  if dwy < 31 then 0 else if dwy < 59 + ilp then 1 else if dwy < 90 + ilp then 2
  else if dwy < 120 + ilp then 3 else if dwy < 151 + ilp then 4 else if dwy < 181 + ilp then 5
  else if dwy < 212 + ilp then 6 else if dwy < 243 + ilp then 7 else if dwy < 273 + ilp then 8
  else if dwy < 304 + ilp then 9 else if dwy < 334 + ilp then 10 else 11

/-- Calendar date (year, month 1-based, day of month) of a day number:
ECMA `YearFromTime` / `MonthFromTime` / `DateFromTime` combined. -/
def ymdOfDay (z : Int) : Int × Int × Int :=
  let y := yearFromDay z
  let dwy := z - dayFromYear y
  let ilp : Int := if isLeapYear y then 1 else 0
  let m0 := monthIdxFromDwy dwy ilp
  (y, m0 + 1, dwy - monthStart m0 ilp + 1)

/-- ECMA `MakeDay(y, m, d)` with `m` a 0-based month index (overflowing
indices roll the year over, as in `new Date(2024, 12, 1)`). -/
def makeDay (y m d : Int) : Int :=
  let ym := y + m / 12
  let mn := m % 12
  let ilp : Int := if isLeapYear ym then 1 else 0
  dayFromYear ym + monthStart mn ilp + (d - 1)

/-- Length of calendar month `m` of year `y` (ECMA `DaysInMonth`). -/
def daysInMonthTable (y m : Int) : Int :=
  if m = 2 then 28 + (if isLeapYear y then 1 else 0)
  else if m = 4 ∨ m = 6 ∨ m = 9 ∨ m = 11 then 30 else 31

/-- ECMA `Day(t)`. -/
def dayOfMs (t : Int) : Int := t / msPerDay

/-- Calendar date of an instant, in UTC. -/
def ymdOfMs (t : Int) : Int × Int × Int := ymdOfDay (dayOfMs t)

/-- `Date.prototype.getUTCHours`: ECMA `HourFromTime`. -/
def getUTCHours (t : Int) : Int := (t / msPerHour) % 24

/-- Local clock reading of an instant on a machine with offset `tz`. -/
def localMs (tz t : Int) : Int := t + tz

/-- `Date.prototype.getFullYear` (local time). -/
def getFullYear (tz t : Int) : Int := (ymdOfMs (localMs tz t)).1

/-- `Date.prototype.getMonth` (local time, 0-based). -/
def getMonthIdx (tz t : Int) : Int := (ymdOfMs (localMs tz t)).2.1 - 1

/-- `Date.prototype.getDate` (local time, day of month). -/
def getDate (tz t : Int) : Int := (ymdOfMs (localMs tz t)).2.2

/-- `Date.prototype.getUTCFullYear`. -/
def getUTCFullYear (t : Int) : Int := (ymdOfMs t).1

/-- `Date.prototype.getUTCMonth` (0-based). -/
def getUTCMonthIdx (t : Int) : Int := (ymdOfMs t).2.1 - 1

/-- `Date.prototype.getUTCDate`. -/
def getUTCDate (t : Int) : Int := (ymdOfMs t).2.2

/-- `Date.UTC(y, mIdx, d)` at midnight, in milliseconds. -/
def dateUTCms (y mIdx d : Int) : Int := makeDay y mIdx d * msPerDay

/-- `new Date(y, mIdx, d)` (local-time constructor) as an instant. -/
def newDateMs (tz y mIdx d : Int) : Int := dateUTCms y mIdx d - tz

/-! ## Decimal rendering and SQLite text comparison

`String(n)` / template literals are modelled by `intToChars`;
`padStart(2, '0')` by `padStart2`; the date part of `toISOString()` by
`toISODate` (zero-padded to 4/2/2 digits, the ECMA format for years
0–9999, the range every theorem below stays in).  SQLite compares `TEXT`
with memcmp under the default BINARY collation; on these pure-ASCII
strings that is exactly lexicographic comparison of the code points
(`memLe`). -/

def digitChar (n : Nat) : Char := Char.ofNat (48 + n)

/-- Decimal digits, most significant first; `fuel` bounds the recursion
depth (any `fuel > n` gives the digits of `n`). -/
def natToCharsAux : Nat → Nat → List Char
  | 0, _ => []
  | fuel + 1, n =>
    if n < 10 then [digitChar n]
    else natToCharsAux fuel (n / 10) ++ [digitChar (n % 10)]

/-- Decimal digits of `n`, most significant first. -/
def natToChars (n : Nat) : List Char := natToCharsAux (n + 1) n

/-- JS `String(i)` for an integer. -/
def intToChars (i : Int) : List Char :=
  if i < 0 then '-' :: natToChars (-i).toNat else natToChars i.toNat

/-- JS `s.padStart(2, '0')`. -/
def padStart2 (l : List Char) : List Char := List.replicate (2 - l.length) '0' ++ l

/-- Zero-pad a digit string to width `w` (ISO-8601 field padding). -/
def padTo (w : Nat) (l : List Char) : List Char := List.replicate (w - l.length) '0' ++ l

/-- The characters of `date.toISOString().split('T')[0]`, `YYYY-MM-DD`. -/
def isoChars (y m d : Nat) : List Char :=
  padTo 4 (natToChars y) ++ '-' :: (padTo 2 (natToChars m) ++ '-' :: padTo 2 (natToChars d))

/-- `new Date(t).toISOString().split('T')[0]` — the UTC calendar date of
`t` rendered `YYYY-MM-DD` (modelled for years 0–9999). -/
def toISODate (t : Int) : String :=
  let c := ymdOfMs t
  String.mk (isoChars c.1.toNat c.2.1.toNat c.2.2.toNat)

/-- memcmp-style `≤` on character lists (SQLite BINARY collation on
ASCII text). -/
def memLe : List Char → List Char → Bool
  | [], _ => true
  | _ :: _, [] => false
  | a :: as, b :: bs =>
    if a.toNat < b.toNat then true
    else if b.toNat < a.toNat then false
    else memLe as bs

/-- SQLite `<=` on two TEXT values. -/
def sqliteTextLe (s t : String) : Bool := memLe s.data t.data

/-! ## Domain models (src/domain/models.ts) -/

structure Keystroke where
  keyCode : Int
  keyName : String
  timestamp : Int
  deriving DecidableEq, Repr

structure KeyStats where
  keyName : String
  count : Nat
  deriving DecidableEq, Repr

structure DailyStats where
  date : Int
  totalKeystrokes : Nat
  keyBreakdown : List KeyStats
  deriving DecidableEq, Repr

structure MonthlyStats where
  year : Int
  month : Int
  totalKeystrokes : Nat
  dailyTrend : List (Int × Nat)
  keyBreakdown : List KeyStats
  deriving DecidableEq, Repr

structure YearlyStats where
  year : Int
  totalKeystrokes : Nat
  monthlyTrend : List (Int × Nat)
  keyBreakdown : List KeyStats
  deriving DecidableEq, Repr

/-! ## Durable store (src/infrastructure/KeystrokeRepository.ts)

A row of the `keystrokes` table; `date` and `hour` are the UTC-derived
columns written by `save`.  The on-disk world is an association list from
paths to store contents (`keystrokes` rows, `backups` rows, and the
AUTOINCREMENT counter), so that file-level copy (backup/restore) and
SQL-level operations can both be expressed. -/

structure Row where
  id : Nat
  keyCode : Int
  keyName : String
  timestamp : Int
  date : String
  hour : Int
  deriving DecidableEq, Repr

structure StoreData where
  rows : List Row
  backups : List (String × Int)
  nextId : Nat
  deriving DecidableEq, Repr

def emptyStore : StoreData := ⟨[], [], 1⟩

inductive DbError where
  | notInitialized
  | backupNotFound
  | invalidPeriod
  | writeFailed
  deriving DecidableEq, Repr

instance {ε α : Type} [DecidableEq ε] [DecidableEq α] : DecidableEq (Except ε α) := fun x y =>
  match x, y with
  | .ok a, .ok b =>
    if h : a = b then .isTrue (by rw [h]) else .isFalse (fun hc => h (Except.ok.inj hc))
  | .error a, .error b =>
    if h : a = b then .isTrue (by rw [h]) else .isFalse (fun hc => h (Except.error.inj hc))
  | .ok _, .error _ => .isFalse (fun hc => Except.noConfusion hc)
  | .error _, .ok _ => .isFalse (fun hc => Except.noConfusion hc)

abbrev FileSys := List (String × StoreData)

def fsGet : FileSys → String → Option StoreData
  | [], _ => none
  | (p, v) :: rest, q => if p = q then some v else fsGet rest q

def fsSet : FileSys → String → StoreData → FileSys
  | [], q, v => [(q, v)]
  | (p, w) :: rest, q, v => if p = q then (q, v) :: rest else (p, w) :: fsSet rest q v

structure RepoState where
  fs : FileSys
  dbPath : String
  dbOpen : Bool
  deriving DecidableEq, Repr

inductive Period where
  | day
  | month
  | year
  deriving DecidableEq, Repr

/-- The row shape returned by `getByDateRange`'s SELECT (no derived
columns). -/
structure SavedKeystroke where
  id : Nat
  keyCode : Int
  keyName : String
  timestamp : Int
  deriving DecidableEq, Repr

def rowSelect (r : Row) : SavedKeystroke := ⟨r.id, r.keyCode, r.keyName, r.timestamp⟩

/-- Grouping worker; `fuel` bounds the recursion depth (any
`fuel ≥ l.length` computes the full grouping). -/
def groupCountsAux : Nat → List Row → List KeyStats
  | 0, _ => []
  | _, [] => []
  | fuel + 1, r :: rest =>
    ⟨r.keyName, 1 + (rest.filter (fun x => x.keyName == r.keyName)).length⟩ ::
      groupCountsAux fuel (rest.filter (fun x => ¬ x.keyName == r.keyName))

/-- `GROUP BY key_name` with `COUNT(*)`: one `KeyStats` per distinct key,
counting its occurrences, groups in first-occurrence order. -/
def groupCounts (l : List Row) : List KeyStats := groupCountsAux l.length l

/-- Insert into a count-descending list, after existing equal counts. -/
def insertByCountDesc (x : KeyStats) : List KeyStats → List KeyStats
  | [] => [x]
  | y :: ys => if x.count ≤ y.count then y :: insertByCountDesc x ys else x :: y :: ys

/-- `ORDER BY count DESC` (stable). -/
def sortByCountDesc : List KeyStats → List KeyStats
  | [] => []
  | x :: xs => insertByCountDesc x (sortByCountDesc xs)

/-- Insert into a timestamp-ascending list, after existing equal stamps. -/
def insertByTs (x : SavedKeystroke) : List SavedKeystroke → List SavedKeystroke
  | [] => [x]
  | y :: ys => if y.timestamp ≤ x.timestamp then y :: insertByTs x ys else x :: y :: ys

/-- `ORDER BY timestamp` (ascending, stable). -/
def sortByTs : List SavedKeystroke → List SavedKeystroke
  | [] => []
  | x :: xs => insertByTs x (sortByTs xs)

namespace KeystrokeRepository

def activeData (s : RepoState) : Option StoreData := fsGet s.fs s.dbPath

/-- `initialize()`: open the connection (creating the database file when
absent) and run the `CREATE TABLE IF NOT EXISTS` schema, which leaves an
existing file untouched.  (Named `initDb` here only because the source's
name is unavailable in this development.) -/
def initDb (s : RepoState) : RepoState :=
  match fsGet s.fs s.dbPath with
  | none => { s with fs := fsSet s.fs s.dbPath emptyStore, dbOpen := true }
  | some _ => { s with dbOpen := true }

/-- `save(keystrokes)`: reject when the handle is null; empty input is a
no-op; otherwise insert every row in one transaction, deriving `date`
(UTC `YYYY-MM-DD`) and `hour` (UTC) from `timestamp`. -/
def save (s : RepoState) (keystrokes : List Keystroke) : Except DbError RepoState :=
  if ¬ s.dbOpen then .error .notInitialized
  else if keystrokes.length = 0 then .ok s
  else
    match activeData s with
    | none => .error .notInitialized
    | some d =>
      let newRows := keystrokes.enum.map (fun p =>
        ({ id := d.nextId + p.1
           keyCode := p.2.keyCode
           keyName := p.2.keyName
           timestamp := p.2.timestamp
           date := toISODate p.2.timestamp
           hour := getUTCHours p.2.timestamp } : Row))
      .ok { s with
              fs := fsSet s.fs s.dbPath
                { d with rows := d.rows ++ newRows,
                         nextId := d.nextId + keystrokes.length } }

/-- `getByDateRange(start, end)`: rows with `timestamp` in the inclusive
range, ordered by `timestamp`. -/
def getByDateRange (s : RepoState) (startMs endMs : Int) :
    Except DbError (List SavedKeystroke) :=
  if ¬ s.dbOpen then .error .notInitialized
  else
    match activeData s with
    | none => .error .notInitialized
    | some d =>
      .ok (sortByTs ((d.rows.filter
        (fun r => decide (startMs ≤ r.timestamp) && decide (r.timestamp ≤ endMs))).map rowSelect))

/-- `getStatsByPeriod(period, date)`: grouped counts restricted to the
period.  The day branch matches the UTC `date` column exactly; the month
and year branches build an inclusive date-string range — reading the
anchor's year and month with the local-time accessors. -/
def getStatsByPeriod (tz : Int) (s : RepoState) (period : Period) (dateMs : Int) :
    Except DbError (List KeyStats) :=
  if ¬ s.dbOpen then .error .notInitialized
  else
    match activeData s with
    | none => .error .notInitialized
    | some d =>
      match period with
      | .day =>
        let dateStr := toISODate dateMs
        .ok (sortByCountDesc (groupCounts (d.rows.filter (fun r => r.date == dateStr))))
      | .month =>
        let year := getFullYear tz dateMs
        let month := getMonthIdx tz dateMs + 1
        let startDate := String.mk
          (intToChars year ++ '-' :: (padStart2 (intToChars month) ++ ['-', '0', '1']))
        let lastDay := getDate tz (newDateMs tz year month 0)
        let endDate := String.mk
          (intToChars year ++ '-' :: (padStart2 (intToChars month) ++
            '-' :: padStart2 (intToChars lastDay)))
        .ok (sortByCountDesc (groupCounts (d.rows.filter
          (fun r => sqliteTextLe startDate r.date && sqliteTextLe r.date endDate))))
      | .year =>
        let year := getFullYear tz dateMs
        let startDate := String.mk (intToChars year ++ ['-', '0', '1', '-', '0', '1'])
        let endDate := String.mk (intToChars year ++ ['-', '1', '2', '-', '3', '1'])
        .ok (sortByCountDesc (groupCounts (d.rows.filter
          (fun r => sqliteTextLe startDate r.date && sqliteTextLe r.date endDate))))

/-- `clear()`: DELETE FROM keystrokes (backups untouched). -/
def clear (s : RepoState) : Except DbError RepoState :=
  if ¬ s.dbOpen then .error .notInitialized
  else
    match activeData s with
    | none => .error .notInitialized
    | some d => .ok { s with fs := fsSet s.fs s.dbPath { d with rows := [] } }

/-- `backup()`: copy the database file to `dbPath.backup.<now>`, then
record `(path, now)` in the `backups` table of the live database. -/
def backup (s : RepoState) (now : Int) : Except DbError (String × RepoState) :=
  if ¬ s.dbOpen then .error .notInitialized
  else
    match activeData s with
    | none => .error .notInitialized
    | some d =>
      let backupPath := s.dbPath ++ ".backup." ++ String.mk (intToChars now)
      let fs1 := fsSet s.fs backupPath d
      match fsGet fs1 s.dbPath with
      | none => .error .notInitialized
      | some d2 =>
        let d3 := { d2 with backups := d2.backups ++ [(backupPath, now)] }
        .ok (backupPath, { s with fs := fsSet fs1 s.dbPath d3 })

/-- `restore(path)`: fail with `BackupNotFound` when the file is missing
(checked before anything is touched); otherwise close, overwrite the
database file with the snapshot, and reopen. -/
def restore (s : RepoState) (backupPath : String) : Except DbError RepoState :=
  if ¬ s.dbOpen then .error .notInitialized
  else
    match fsGet s.fs backupPath with
    | none => .error .backupNotFound
    | some snap =>
      let closed : RepoState := { s with dbOpen := false }
      .ok (initDb { closed with fs := fsSet closed.fs closed.dbPath snap })

end KeystrokeRepository

/-! ## Ingestion buffer (src/infrastructure/KeystrokeBuffer.ts)

The durable side effect of `repository.save` on a batch is abstracted to
appending the batch to a persisted list (`save` is transactional: a
failed attempt persists nothing).  Failure injection: `failsAt k` says
whether write attempt number `k` (0-based) rejects. -/

def maxRetries : Nat := 3

def retryDelay : Nat := 1000

def maxSize : Nat := 100

def flushInterval : Nat := 1000

structure RetryOutcome where
  store : List Keystroke
  attempts : Nat
  delays : List Nat
  success : Bool
  deriving DecidableEq, Repr

/-- Retry worker; `fuel` bounds the recursion depth.  With
`fuel = maxRetries - attempt + 1` it is exactly the source's
`flushWithRetry` recursion, whose depth from `attempt` is bounded by the
`attempt < maxRetries` guard. -/
def flushWithRetryGo (failsAt : Nat → Bool) (store batch : List Keystroke) :
    Nat → Nat → RetryOutcome
  | 0, _ => ⟨store, 1, [], false⟩
  | fuel + 1, attempt =>
    if failsAt attempt then
      if attempt < maxRetries then
        let delay := retryDelay * 2 ^ attempt
        let rest := flushWithRetryGo failsAt store batch fuel (attempt + 1)
        ⟨rest.store, rest.attempts + 1, delay :: rest.delays, rest.success⟩
      else ⟨store, 1, [], false⟩
    else ⟨store ++ batch, 1, [], true⟩

/-- `flushWithRetry(keystrokes, attempt)`: try the batched write; on
failure wait `retryDelay * 2 ^ attempt` and recurse while
`attempt < maxRetries`, else give up. -/
def flushWithRetry (failsAt : Nat → Bool) (store batch : List Keystroke) (attempt : Nat) :
    RetryOutcome :=
  flushWithRetryGo failsAt store batch (maxRetries - attempt + 1) attempt

structure FlushOutcome where
  buffer : List Keystroke
  store : List Keystroke
  attempts : Nat
  delays : List Nat
  deriving DecidableEq, Repr

/-- `flush()`: return immediately when a flush is in progress or the
buffer is empty; otherwise swap the queue out and run `flushWithRetry`;
when every attempt fails, unshift the batch back onto the front of the
queue.  `newDuring` are the records `add` pushed while the attempts were
in flight. -/
def flush (failsAt : Nat → Bool) (isFlushingInProgress : Bool)
    (buffer store newDuring : List Keystroke) : FlushOutcome :=
  if isFlushingInProgress then ⟨buffer ++ newDuring, store, 0, []⟩
  else if buffer.length = 0 then ⟨buffer ++ newDuring, store, 0, []⟩
  else
    let out := flushWithRetry failsAt store buffer 0
    if out.success then ⟨newDuring, out.store, out.attempts, out.delays⟩
    else ⟨buffer ++ newDuring, out.store, out.attempts, out.delays⟩

/-! ## Aggregation cache (src/domain/services.ts, StatisticsService) -/

inductive CacheVal where
  | daily (v : DailyStats)
  | monthly (v : MonthlyStats)
  | yearly (v : YearlyStats)
  deriving DecidableEq, Repr

structure CacheEntry where
  data : CacheVal
  expiresAt : Int
  deriving DecidableEq, Repr

abbrev Cache := List (String × CacheEntry)

def CACHE_TTL_MS : Int := 5 * 60 * 1000

def cacheDelete : Cache → String → Cache
  | [], _ => []
  | (k, v) :: rest, q => if k = q then cacheDelete rest q else (k, v) :: cacheDelete rest q

def cacheLookup : Cache → String → Option CacheEntry
  | [], _ => none
  | (k, v) :: rest, q => if k = q then some v else cacheLookup rest q

/-- `getFromCache`: a hit only when present and not expired; an expired
entry is deleted. -/
def getFromCache (now : Int) (c : Cache) (key : String) : Option CacheVal × Cache :=
  match cacheLookup c key with
  | none => (none, c)
  | some e => if e.expiresAt < now then (none, cacheDelete c key) else (some e.data, c)

/-- `setCache`: store with expiry `now + CACHE_TTL_MS`. -/
def setCache (now : Int) (c : Cache) (key : String) (v : CacheVal) : Cache :=
  (key, ⟨v, now + CACHE_TTL_MS⟩) :: cacheDelete c key

/-- A service call's outcome: the result, the cache afterwards, and how
many repository queries were issued. -/
structure SvcResult (α : Type) where
  result : Except DbError α
  cache : Cache
  repoQueries : Nat

def sumCounts (l : List KeyStats) : Nat := l.foldl (fun sum stat => sum + stat.count) 0

def trendTotal (l : List (Int × Nat)) : Nat := l.foldl (fun sum e => sum + e.2) 0

namespace StatisticsService

/-- `getDailyStats(date)`: normalize to UTC midnight, consult the cache,
else one day query; `totalKeystrokes` is the reduce-sum of the
breakdown. -/
def getDailyStats (tz : Int) (repo : RepoState) (now : Int) (cache : Cache)
    (dateMs : Int) : SvcResult DailyStats :=
  let normalizedDate :=
    dateUTCms (getUTCFullYear dateMs) (getUTCMonthIdx dateMs) (getUTCDate dateMs)
  let cacheKey := "daily:" ++ String.mk (intToChars normalizedDate)
  match getFromCache now cache cacheKey with
  | (some (.daily v), c1) => ⟨.ok v, c1, 0⟩
  | (_, c1) =>
    match KeystrokeRepository.getStatsByPeriod tz repo .day normalizedDate with
    | .error e => ⟨.error e, c1, 1⟩
    | .ok keyBreakdown =>
      let result : DailyStats := ⟨normalizedDate, sumCounts keyBreakdown, keyBreakdown⟩
      ⟨.ok result, setCache now c1 cacheKey (.daily result), 1⟩

/-- `getDailyTrendForMonth`: one day query per calendar day of the month
(`daysInMonth` from `new Date(year, month, 0).getDate()`), each anchored
at `Date.UTC(year, month-1, day)`. -/
def getDailyTrendForMonth (tz : Int) (repo : RepoState) (year month : Int) :
    Except DbError (List (Int × Nat)) :=
  let daysInMonth := getDate tz (newDateMs tz year month 0)
  (List.range daysInMonth.toNat).mapM (fun i =>
    let date := dateUTCms year (month - 1) (i + 1 : Nat)
    (KeystrokeRepository.getStatsByPeriod tz repo .day date).map
      (fun dayStats => (date, sumCounts dayStats)))

/-- `getMonthlyStats(year, month)`: validate `1 ≤ month ≤ 12` first
(else `InvalidPeriod`, nothing queried, cache untouched); then cache
lookup; then the month breakdown anchored at `new Date(year, month-1, 1)`
and the daily trend. -/
def getMonthlyStats (tz : Int) (repo : RepoState) (now : Int) (cache : Cache)
    (year month : Int) : SvcResult MonthlyStats :=
  if month < 1 ∨ 12 < month then ⟨.error .invalidPeriod, cache, 0⟩
  else
    let cacheKey :=
      "monthly:" ++ String.mk (intToChars year) ++ ":" ++ String.mk (intToChars month)
    match getFromCache now cache cacheKey with
    | (some (.monthly v), c1) => ⟨.ok v, c1, 0⟩
    | (_, c1) =>
      let monthDate := newDateMs tz year (month - 1) 1
      match KeystrokeRepository.getStatsByPeriod tz repo .month monthDate with
      | .error e => ⟨.error e, c1, 1⟩
      | .ok keyBreakdown =>
        match getDailyTrendForMonth tz repo year month with
        | .error e => ⟨.error e, c1, 1⟩
        | .ok dailyTrend =>
          let result : MonthlyStats :=
            ⟨year, month, sumCounts keyBreakdown, dailyTrend, keyBreakdown⟩
          ⟨.ok result, setCache now c1 cacheKey (.monthly result), 1 + dailyTrend.length⟩

/-- `getMonthlyTrendForYear`: one month query per month 1–12, each
anchored at `Date.UTC(year, month-1, 1)`. -/
def getMonthlyTrendForYear (tz : Int) (repo : RepoState) (year : Int) :
    Except DbError (List (Int × Nat)) :=
  (List.range 12).mapM (fun i =>
    let month : Int := (i + 1 : Nat)
    let date := dateUTCms year (month - 1) 1
    (KeystrokeRepository.getStatsByPeriod tz repo .month date).map
      (fun monthStats => (month, sumCounts monthStats)))

/-- `getYearlyStats(year)`: cache lookup, then the year breakdown
anchored at `new Date(year, 0, 1)` and the monthly trend. -/
def getYearlyStats (tz : Int) (repo : RepoState) (now : Int) (cache : Cache)
    (year : Int) : SvcResult YearlyStats :=
  let cacheKey := "yearly:" ++ String.mk (intToChars year)
  match getFromCache now cache cacheKey with
  | (some (.yearly v), c1) => ⟨.ok v, c1, 0⟩
  | (_, c1) =>
    let yearDate := newDateMs tz year 0 1
    match KeystrokeRepository.getStatsByPeriod tz repo .year yearDate with
    | .error e => ⟨.error e, c1, 1⟩
    | .ok keyBreakdown =>
      match getMonthlyTrendForYear tz repo year with
      | .error e => ⟨.error e, c1, 1⟩
      | .ok monthlyTrend =>
        let result : YearlyStats := ⟨year, sumCounts keyBreakdown, monthlyTrend, keyBreakdown⟩
        ⟨.ok result, setCache now c1 cacheKey (.yearly result), 13⟩

/-- `getTopKeys(period, date, limit)`: the first `limit` entries of the
(already count-descending) period breakdown. -/
def getTopKeys (tz : Int) (repo : RepoState) (period : Period) (dateMs : Int)
    (limit : Nat) : Except DbError (List KeyStats) :=
  (KeystrokeRepository.getStatsByPeriod tz repo period dateMs).map
    (fun stats => stats.take limit)

end StatisticsService

/-! ## Calendar lemmas: the ECMA date functions are a correct Gregorian calendar -/

theorem isLeapYear_iff (y : Int) :
    isLeapYear y = true ↔ (y % 4 = 0 ∧ (y % 100 ≠ 0 ∨ y % 400 = 0)) := by
  simp [isLeapYear]

theorem dayFromYear_1970 : dayFromYear 1970 = 0 := by decide

theorem dayFromYear_10000 : dayFromYear 10000 = 2932897 := by decide

theorem dayFromYear_ge (y : Int) (h : 1970 ≤ y) : 365 * (y - 1970) ≤ dayFromYear y := by
  simp only [dayFromYear]; omega

theorem dayFromYear_mono {y1 y2 : Int} (h : y1 ≤ y2) : dayFromYear y1 ≤ dayFromYear y2 := by
  simp only [dayFromYear]; omega

theorem daysInYear_bounds (y : Int) : 365 ≤ daysInYear y ∧ daysInYear y ≤ 366 := by
  simp only [daysInYear]; split <;> omega

theorem dayFromYear_succ (y : Int) : dayFromYear (y + 1) = dayFromYear y + daysInYear y := by
  have h := isLeapYear_iff y
  simp only [daysInYear, dayFromYear]
  rcases hb : isLeapYear y <;> simp [hb] at h ⊢ <;> omega

theorem yearFromDayUp_spec (fuel : Nat) (y z : Int)
    (h1 : dayFromYear y ≤ z) (h2 : z < dayFromYear (y + (fuel : Int) + 1)) :
    dayFromYear (yearFromDayUp fuel y z) ≤ z ∧
      z < dayFromYear (yearFromDayUp fuel y z + 1) ∧ y ≤ yearFromDayUp fuel y z := by
  induction fuel generalizing y with
  | zero =>
    have harg : y + ((0 : Nat) : Int) + 1 = y + 1 := by push_cast; ring
    rw [harg] at h2
    exact ⟨by simpa [yearFromDayUp] using h1, by simpa [yearFromDayUp] using h2,
      by simp [yearFromDayUp]⟩
  | succ n ih =>
    rw [yearFromDayUp]
    by_cases hc : dayFromYear (y + 1) ≤ z
    · simp only [hc, if_true]
      have harg : y + ((n + 1 : Nat) : Int) + 1 = y + 1 + (n : Int) + 1 := by push_cast; ring
      rw [harg] at h2
      have := ih (y + 1) hc h2
      exact ⟨this.1, this.2.1, by omega⟩
    · simp only [hc, if_false]
      exact ⟨h1, by omega, le_refl y⟩

theorem yearFromDay_spec (z : Int) (h : 0 ≤ z) :
    dayFromYear (yearFromDay z) ≤ z ∧ z < dayFromYear (yearFromDay z + 1) ∧
      1970 ≤ yearFromDay z := by
  rw [yearFromDay, if_pos h]
  refine yearFromDayUp_spec _ 1970 z (by rw [dayFromYear_1970]; exact h) ?_
  have hge := dayFromYear_ge (1970 + ((z.toNat / 365 + 1 : Nat) : Int) + 1) (by omega)
  omega

theorem yearFromDay_unique (z y : Int) (h : 0 ≤ z)
    (h1 : dayFromYear y ≤ z) (h2 : z < dayFromYear (y + 1)) : yearFromDay z = y := by
  have hs := yearFromDay_spec z h
  rcases lt_trichotomy (yearFromDay z) y with hlt | heq | hgt
  · have : dayFromYear (yearFromDay z + 1) ≤ dayFromYear y := dayFromYear_mono (by omega)
    omega
  · exact heq
  · have : dayFromYear (y + 1) ≤ dayFromYear (yearFromDay z) := dayFromYear_mono (by omega)
    omega

theorem dayFromYear_nonneg (y : Int) (h : 1970 ≤ y) : 0 ≤ dayFromYear y := by
  have := dayFromYear_mono h
  rw [dayFromYear_1970] at this
  exact this

/-- Decomposing a day number as a year start plus a day-within-year pins
down all three calendar fields of `ymdOfDay`. -/
theorem ymdOfDay_eq (y dwy : Int) (hy : 1970 ≤ y) (h1 : 0 ≤ dwy) (h2 : dwy < daysInYear y) :
    ymdOfDay (dayFromYear y + dwy) =
      (y, monthIdxFromDwy dwy (if isLeapYear y then 1 else 0) + 1,
        dwy - monthStart (monthIdxFromDwy dwy (if isLeapYear y then 1 else 0))
          (if isLeapYear y then 1 else 0) + 1) := by
  have hz : 0 ≤ dayFromYear y + dwy := by have := dayFromYear_nonneg y hy; omega
  have hyz : yearFromDay (dayFromYear y + dwy) = y := by
    refine yearFromDay_unique _ y hz (by omega) ?_
    rw [dayFromYear_succ]; omega
  simp only [ymdOfDay, hyz]
  congr 2 <;> ring_nf

theorem yearFromDay_le_9999 (z : Int) (h0 : 0 ≤ z) (h1 : z ≤ 2932896) :
    yearFromDay z ≤ 9999 := by
  have hs := yearFromDay_spec z h0
  by_contra hgt
  have : dayFromYear 10000 ≤ dayFromYear (yearFromDay z) := dayFromYear_mono (by omega)
  rw [dayFromYear_10000] at this
  omega

theorem monthStart_0 (ilp : Int) : monthStart 0 ilp = 0 := by
  norm_num [monthStart]

theorem monthStart_1 (ilp : Int) : monthStart 1 ilp = 31 := by
  norm_num [monthStart]

theorem monthStart_2 (ilp : Int) : monthStart 2 ilp = 59 + ilp := by
  norm_num [monthStart]

theorem monthStart_3 (ilp : Int) : monthStart 3 ilp = 90 + ilp := by
  norm_num [monthStart]

theorem monthStart_4 (ilp : Int) : monthStart 4 ilp = 120 + ilp := by
  norm_num [monthStart]

theorem monthStart_5 (ilp : Int) : monthStart 5 ilp = 151 + ilp := by
  norm_num [monthStart]

theorem monthStart_6 (ilp : Int) : monthStart 6 ilp = 181 + ilp := by
  norm_num [monthStart]

theorem monthStart_7 (ilp : Int) : monthStart 7 ilp = 212 + ilp := by
  norm_num [monthStart]

theorem monthStart_8 (ilp : Int) : monthStart 8 ilp = 243 + ilp := by
  norm_num [monthStart]

theorem monthStart_9 (ilp : Int) : monthStart 9 ilp = 273 + ilp := by
  norm_num [monthStart]

theorem monthStart_10 (ilp : Int) : monthStart 10 ilp = 304 + ilp := by
  norm_num [monthStart]

theorem monthStart_11 (ilp : Int) : monthStart 11 ilp = 334 + ilp := by
  norm_num [monthStart]

theorem monthIdxFromDwy_eq0 (dwy ilp : Int) (c0 : dwy < 31) :
    monthIdxFromDwy dwy ilp = 0 := by
  simp [monthIdxFromDwy, c0]

theorem monthIdxFromDwy_eq1 (dwy ilp : Int) (c0 : ¬ dwy < 31)
    (c1 : dwy < 59 + ilp) :
    monthIdxFromDwy dwy ilp = 1 := by
  simp [monthIdxFromDwy, c0, c1]

theorem monthIdxFromDwy_eq2 (dwy ilp : Int) (c0 : ¬ dwy < 31)
    (c1 : ¬ dwy < 59 + ilp)
    (c2 : dwy < 90 + ilp) :
    monthIdxFromDwy dwy ilp = 2 := by
  simp [monthIdxFromDwy, c0, c1, c2]

theorem monthIdxFromDwy_eq3 (dwy ilp : Int) (c0 : ¬ dwy < 31)
    (c1 : ¬ dwy < 59 + ilp)
    (c2 : ¬ dwy < 90 + ilp)
    (c3 : dwy < 120 + ilp) :
    monthIdxFromDwy dwy ilp = 3 := by
  simp [monthIdxFromDwy, c0, c1, c2, c3]

theorem monthIdxFromDwy_eq4 (dwy ilp : Int) (c0 : ¬ dwy < 31)
    (c1 : ¬ dwy < 59 + ilp)
    (c2 : ¬ dwy < 90 + ilp)
    (c3 : ¬ dwy < 120 + ilp)
    (c4 : dwy < 151 + ilp) :
    monthIdxFromDwy dwy ilp = 4 := by
  simp [monthIdxFromDwy, c0, c1, c2, c3, c4]

theorem monthIdxFromDwy_eq5 (dwy ilp : Int) (c0 : ¬ dwy < 31)
    (c1 : ¬ dwy < 59 + ilp)
    (c2 : ¬ dwy < 90 + ilp)
    (c3 : ¬ dwy < 120 + ilp)
    (c4 : ¬ dwy < 151 + ilp)
    (c5 : dwy < 181 + ilp) :
    monthIdxFromDwy dwy ilp = 5 := by
  simp [monthIdxFromDwy, c0, c1, c2, c3, c4, c5]

theorem monthIdxFromDwy_eq6 (dwy ilp : Int) (c0 : ¬ dwy < 31)
    (c1 : ¬ dwy < 59 + ilp)
    (c2 : ¬ dwy < 90 + ilp)
    (c3 : ¬ dwy < 120 + ilp)
    (c4 : ¬ dwy < 151 + ilp)
    (c5 : ¬ dwy < 181 + ilp)
    (c6 : dwy < 212 + ilp) :
    monthIdxFromDwy dwy ilp = 6 := by
  simp [monthIdxFromDwy, c0, c1, c2, c3, c4, c5, c6]

theorem monthIdxFromDwy_eq7 (dwy ilp : Int) (c0 : ¬ dwy < 31)
    (c1 : ¬ dwy < 59 + ilp)
    (c2 : ¬ dwy < 90 + ilp)
    (c3 : ¬ dwy < 120 + ilp)
    (c4 : ¬ dwy < 151 + ilp)
    (c5 : ¬ dwy < 181 + ilp)
    (c6 : ¬ dwy < 212 + ilp)
    (c7 : dwy < 243 + ilp) :
    monthIdxFromDwy dwy ilp = 7 := by
  simp [monthIdxFromDwy, c0, c1, c2, c3, c4, c5, c6, c7]

theorem monthIdxFromDwy_eq8 (dwy ilp : Int) (c0 : ¬ dwy < 31)
    (c1 : ¬ dwy < 59 + ilp)
    (c2 : ¬ dwy < 90 + ilp)
    (c3 : ¬ dwy < 120 + ilp)
    (c4 : ¬ dwy < 151 + ilp)
    (c5 : ¬ dwy < 181 + ilp)
    (c6 : ¬ dwy < 212 + ilp)
    (c7 : ¬ dwy < 243 + ilp)
    (c8 : dwy < 273 + ilp) :
    monthIdxFromDwy dwy ilp = 8 := by
  simp [monthIdxFromDwy, c0, c1, c2, c3, c4, c5, c6, c7, c8]

theorem monthIdxFromDwy_eq9 (dwy ilp : Int) (c0 : ¬ dwy < 31)
    (c1 : ¬ dwy < 59 + ilp)
    (c2 : ¬ dwy < 90 + ilp)
    (c3 : ¬ dwy < 120 + ilp)
    (c4 : ¬ dwy < 151 + ilp)
    (c5 : ¬ dwy < 181 + ilp)
    (c6 : ¬ dwy < 212 + ilp)
    (c7 : ¬ dwy < 243 + ilp)
    (c8 : ¬ dwy < 273 + ilp)
    (c9 : dwy < 304 + ilp) :
    monthIdxFromDwy dwy ilp = 9 := by
  simp [monthIdxFromDwy, c0, c1, c2, c3, c4, c5, c6, c7, c8, c9]

theorem monthIdxFromDwy_eq10 (dwy ilp : Int) (c0 : ¬ dwy < 31)
    (c1 : ¬ dwy < 59 + ilp)
    (c2 : ¬ dwy < 90 + ilp)
    (c3 : ¬ dwy < 120 + ilp)
    (c4 : ¬ dwy < 151 + ilp)
    (c5 : ¬ dwy < 181 + ilp)
    (c6 : ¬ dwy < 212 + ilp)
    (c7 : ¬ dwy < 243 + ilp)
    (c8 : ¬ dwy < 273 + ilp)
    (c9 : ¬ dwy < 304 + ilp)
    (c10 : dwy < 334 + ilp) :
    monthIdxFromDwy dwy ilp = 10 := by
  simp [monthIdxFromDwy, c0, c1, c2, c3, c4, c5, c6, c7, c8, c9, c10]

theorem monthIdxFromDwy_eq11 (dwy ilp : Int) (c0 : ¬ dwy < 31)
    (c1 : ¬ dwy < 59 + ilp)
    (c2 : ¬ dwy < 90 + ilp)
    (c3 : ¬ dwy < 120 + ilp)
    (c4 : ¬ dwy < 151 + ilp)
    (c5 : ¬ dwy < 181 + ilp)
    (c6 : ¬ dwy < 212 + ilp)
    (c7 : ¬ dwy < 243 + ilp)
    (c8 : ¬ dwy < 273 + ilp)
    (c9 : ¬ dwy < 304 + ilp)
    (c10 : ¬ dwy < 334 + ilp) :
    monthIdxFromDwy dwy ilp = 11 := by
  simp [monthIdxFromDwy, c0, c1, c2, c3, c4, c5, c6, c7, c8, c9, c10]

theorem ymdOfDay_split (z : Int) (h0 : 0 ≤ z) :
    ∃ y dwy, 1970 ≤ y ∧ 0 ≤ dwy ∧ dwy < daysInYear y ∧ z = dayFromYear y + dwy := by
  have hs := yearFromDay_spec z h0
  refine ⟨yearFromDay z, z - dayFromYear (yearFromDay z), hs.2.2, by omega, ?_, by ring⟩
  have := dayFromYear_succ (yearFromDay z)
  omega

theorem daysInYear_eq (y : Int) :
    daysInYear y = 365 + (if isLeapYear y then 1 else 0) := by
  simp only [daysInYear]; split <;> norm_num

theorem ilp_nonneg (y : Int) : (0 : Int) ≤ (if isLeapYear y then 1 else 0) := by
  split <;> norm_num

theorem ilp_le_one (y : Int) : ((if isLeapYear y then 1 else 0) : Int) ≤ 1 := by
  split <;> norm_num

theorem ymdOfDay_decomp (z y dwy mi : Int) (hz : z = dayFromYear y + dwy) (hy : 1970 ≤ y)
    (h1 : 0 ≤ dwy) (h2 : dwy < daysInYear y)
    (hmi : monthIdxFromDwy dwy (if isLeapYear y then 1 else 0) = mi) :
    ymdOfDay z = (y, mi + 1, dwy - monthStart mi (if isLeapYear y then 1 else 0) + 1) := by
  subst hz; rw [ymdOfDay_eq y dwy hy h1 h2, hmi]


theorem ymdOfDay_valid (z : Int) (h0 : 0 ≤ z) :
    1970 ≤ (ymdOfDay z).1 ∧ 1 ≤ (ymdOfDay z).2.1 ∧ (ymdOfDay z).2.1 ≤ 12 ∧
      1 ≤ (ymdOfDay z).2.2 ∧
      (ymdOfDay z).2.2 ≤ daysInMonthTable (ymdOfDay z).1 (ymdOfDay z).2.1 := by
  obtain ⟨y, dwy, hy, hd1, hd2, rfl⟩ := ymdOfDay_split z h0
  rw [ymdOfDay_eq y dwy hy hd1 hd2]
  rw [daysInYear_eq] at hd2
  have hilp0 := ilp_nonneg y
  have hilp1 := ilp_le_one y
  dsimp only
  by_cases c0 : dwy < 31
  · rw [monthIdxFromDwy_eq0 _ _ c0, monthStart_0]
    norm_num [daysInMonthTable] <;> omega
  by_cases c1 : dwy < 59 + (if isLeapYear y then 1 else 0)
  · rw [monthIdxFromDwy_eq1 _ _ c0 c1, monthStart_1]
    norm_num [daysInMonthTable] <;> omega
  by_cases c2 : dwy < 90 + (if isLeapYear y then 1 else 0)
  · rw [monthIdxFromDwy_eq2 _ _ c0 c1 c2, monthStart_2]
    norm_num [daysInMonthTable] <;> omega
  by_cases c3 : dwy < 120 + (if isLeapYear y then 1 else 0)
  · rw [monthIdxFromDwy_eq3 _ _ c0 c1 c2 c3, monthStart_3]
    norm_num [daysInMonthTable] <;> omega
  by_cases c4 : dwy < 151 + (if isLeapYear y then 1 else 0)
  · rw [monthIdxFromDwy_eq4 _ _ c0 c1 c2 c3 c4, monthStart_4]
    norm_num [daysInMonthTable] <;> omega
  by_cases c5 : dwy < 181 + (if isLeapYear y then 1 else 0)
  · rw [monthIdxFromDwy_eq5 _ _ c0 c1 c2 c3 c4 c5, monthStart_5]
    norm_num [daysInMonthTable] <;> omega
  by_cases c6 : dwy < 212 + (if isLeapYear y then 1 else 0)
  · rw [monthIdxFromDwy_eq6 _ _ c0 c1 c2 c3 c4 c5 c6, monthStart_6]
    norm_num [daysInMonthTable] <;> omega
  by_cases c7 : dwy < 243 + (if isLeapYear y then 1 else 0)
  · rw [monthIdxFromDwy_eq7 _ _ c0 c1 c2 c3 c4 c5 c6 c7, monthStart_7]
    norm_num [daysInMonthTable] <;> omega
  by_cases c8 : dwy < 273 + (if isLeapYear y then 1 else 0)
  · rw [monthIdxFromDwy_eq8 _ _ c0 c1 c2 c3 c4 c5 c6 c7 c8, monthStart_8]
    norm_num [daysInMonthTable] <;> omega
  by_cases c9 : dwy < 304 + (if isLeapYear y then 1 else 0)
  · rw [monthIdxFromDwy_eq9 _ _ c0 c1 c2 c3 c4 c5 c6 c7 c8 c9, monthStart_9]
    norm_num [daysInMonthTable] <;> omega
  by_cases c10 : dwy < 334 + (if isLeapYear y then 1 else 0)
  · rw [monthIdxFromDwy_eq10 _ _ c0 c1 c2 c3 c4 c5 c6 c7 c8 c9 c10, monthStart_10]
    norm_num [daysInMonthTable] <;> omega
  rw [monthIdxFromDwy_eq11 _ _ c0 c1 c2 c3 c4 c5 c6 c7 c8 c9 c10, monthStart_11]
  norm_num [daysInMonthTable] <;> omega


theorem ymdOfDay_makeDay (y m0 d : Int) (hy : 1970 ≤ y) (hm0 : 0 ≤ m0) (hm1 : m0 ≤ 11)
    (hd1 : 1 ≤ d) (hd2 : d ≤ daysInMonthTable y (m0 + 1)) :
    ymdOfDay (makeDay y m0 d) = (y, m0 + 1, d) := by
  have hilp0 := ilp_nonneg y
  have hilp1 := ilp_le_one y
  interval_cases m0
  · norm_num [daysInMonthTable] at hd2
    refine (ymdOfDay_decomp _ y (0 + (d - 1)) 0 ?_ hy (by omega) ?_ ?_).trans ?_
    · simp only [makeDay]; norm_num [monthStart_0] <;> omega
    · rw [daysInYear_eq] <;> omega
    · exact monthIdxFromDwy_eq0 _ _ (by omega)
    · rw [monthStart_0]; refine Prod.ext rfl (Prod.ext (by norm_num) (by ring))
  · norm_num [daysInMonthTable] at hd2
    refine (ymdOfDay_decomp _ y (31 + (d - 1)) 1 ?_ hy (by omega) ?_ ?_).trans ?_
    · simp only [makeDay]; norm_num [monthStart_1] <;> omega
    · rw [daysInYear_eq] <;> omega
    · exact monthIdxFromDwy_eq1 _ _ (by omega) (by omega)
    · rw [monthStart_1]; refine Prod.ext rfl (Prod.ext (by norm_num) (by ring))
  · norm_num [daysInMonthTable] at hd2
    refine (ymdOfDay_decomp _ y (59 + (if isLeapYear y then 1 else 0) + (d - 1)) 2 ?_ hy (by omega) ?_ ?_).trans ?_
    · simp only [makeDay]; norm_num [monthStart_2] <;> omega
    · rw [daysInYear_eq] <;> omega
    · exact monthIdxFromDwy_eq2 _ _ (by omega) (by omega) (by omega)
    · rw [monthStart_2]; refine Prod.ext rfl (Prod.ext (by norm_num) (by ring))
  · norm_num [daysInMonthTable] at hd2
    refine (ymdOfDay_decomp _ y (90 + (if isLeapYear y then 1 else 0) + (d - 1)) 3 ?_ hy (by omega) ?_ ?_).trans ?_
    · simp only [makeDay]; norm_num [monthStart_3] <;> omega
    · rw [daysInYear_eq] <;> omega
    · exact monthIdxFromDwy_eq3 _ _ (by omega) (by omega) (by omega) (by omega)
    · rw [monthStart_3]; refine Prod.ext rfl (Prod.ext (by norm_num) (by ring))
  · norm_num [daysInMonthTable] at hd2
    refine (ymdOfDay_decomp _ y (120 + (if isLeapYear y then 1 else 0) + (d - 1)) 4 ?_ hy (by omega) ?_ ?_).trans ?_
    · simp only [makeDay]; norm_num [monthStart_4] <;> omega
    · rw [daysInYear_eq] <;> omega
    · exact monthIdxFromDwy_eq4 _ _ (by omega) (by omega) (by omega) (by omega) (by omega)
    · rw [monthStart_4]; refine Prod.ext rfl (Prod.ext (by norm_num) (by ring))
  · norm_num [daysInMonthTable] at hd2
    refine (ymdOfDay_decomp _ y (151 + (if isLeapYear y then 1 else 0) + (d - 1)) 5 ?_ hy (by omega) ?_ ?_).trans ?_
    · simp only [makeDay]; norm_num [monthStart_5] <;> omega
    · rw [daysInYear_eq] <;> omega
    · exact monthIdxFromDwy_eq5 _ _ (by omega) (by omega) (by omega) (by omega) (by omega) (by omega)
    · rw [monthStart_5]; refine Prod.ext rfl (Prod.ext (by norm_num) (by ring))
  · norm_num [daysInMonthTable] at hd2
    refine (ymdOfDay_decomp _ y (181 + (if isLeapYear y then 1 else 0) + (d - 1)) 6 ?_ hy (by omega) ?_ ?_).trans ?_
    · simp only [makeDay]; norm_num [monthStart_6] <;> omega
    · rw [daysInYear_eq] <;> omega
    · exact monthIdxFromDwy_eq6 _ _ (by omega) (by omega) (by omega) (by omega) (by omega) (by omega) (by omega)
    · rw [monthStart_6]; refine Prod.ext rfl (Prod.ext (by norm_num) (by ring))
  · norm_num [daysInMonthTable] at hd2
    refine (ymdOfDay_decomp _ y (212 + (if isLeapYear y then 1 else 0) + (d - 1)) 7 ?_ hy (by omega) ?_ ?_).trans ?_
    · simp only [makeDay]; norm_num [monthStart_7] <;> omega
    · rw [daysInYear_eq] <;> omega
    · exact monthIdxFromDwy_eq7 _ _ (by omega) (by omega) (by omega) (by omega) (by omega) (by omega) (by omega) (by omega)
    · rw [monthStart_7]; refine Prod.ext rfl (Prod.ext (by norm_num) (by ring))
  · norm_num [daysInMonthTable] at hd2
    refine (ymdOfDay_decomp _ y (243 + (if isLeapYear y then 1 else 0) + (d - 1)) 8 ?_ hy (by omega) ?_ ?_).trans ?_
    · simp only [makeDay]; norm_num [monthStart_8] <;> omega
    · rw [daysInYear_eq] <;> omega
    · exact monthIdxFromDwy_eq8 _ _ (by omega) (by omega) (by omega) (by omega) (by omega) (by omega) (by omega) (by omega) (by omega)
    · rw [monthStart_8]; refine Prod.ext rfl (Prod.ext (by norm_num) (by ring))
  · norm_num [daysInMonthTable] at hd2
    refine (ymdOfDay_decomp _ y (273 + (if isLeapYear y then 1 else 0) + (d - 1)) 9 ?_ hy (by omega) ?_ ?_).trans ?_
    · simp only [makeDay]; norm_num [monthStart_9] <;> omega
    · rw [daysInYear_eq] <;> omega
    · exact monthIdxFromDwy_eq9 _ _ (by omega) (by omega) (by omega) (by omega) (by omega) (by omega) (by omega) (by omega) (by omega) (by omega)
    · rw [monthStart_9]; refine Prod.ext rfl (Prod.ext (by norm_num) (by ring))
  · norm_num [daysInMonthTable] at hd2
    refine (ymdOfDay_decomp _ y (304 + (if isLeapYear y then 1 else 0) + (d - 1)) 10 ?_ hy (by omega) ?_ ?_).trans ?_
    · simp only [makeDay]; norm_num [monthStart_10] <;> omega
    · rw [daysInYear_eq] <;> omega
    · exact monthIdxFromDwy_eq10 _ _ (by omega) (by omega) (by omega) (by omega) (by omega) (by omega) (by omega) (by omega) (by omega) (by omega) (by omega)
    · rw [monthStart_10]; refine Prod.ext rfl (Prod.ext (by norm_num) (by ring))
  · norm_num [daysInMonthTable] at hd2
    refine (ymdOfDay_decomp _ y (334 + (if isLeapYear y then 1 else 0) + (d - 1)) 11 ?_ hy (by omega) ?_ ?_).trans ?_
    · simp only [makeDay]; norm_num [monthStart_11] <;> omega
    · rw [daysInYear_eq] <;> omega
    · exact monthIdxFromDwy_eq11 _ _ (by omega) (by omega) (by omega) (by omega) (by omega) (by omega) (by omega) (by omega) (by omega) (by omega) (by omega)
    · rw [monthStart_11]; refine Prod.ext rfl (Prod.ext (by norm_num) (by ring))

theorem ymdOfDay_makeDay_zero (y M : Int) (hy : 1970 ≤ y) (h1 : 1 ≤ M) (h2 : M ≤ 12) :
    ymdOfDay (makeDay y M 0) = (y, M, daysInMonthTable y M) := by
  have hilp0 := ilp_nonneg y
  have hilp1 := ilp_le_one y
  interval_cases M
  · refine (ymdOfDay_decomp _ y (30 : Int) 0 ?_ hy (by omega) ?_ ?_).trans ?_
    · simp only [makeDay]; norm_num [monthStart_1] <;> omega
    · rw [daysInYear_eq]; omega
    · exact monthIdxFromDwy_eq0 _ _ (by omega)
    · rw [monthStart_0]
      refine Prod.ext rfl (Prod.ext (by norm_num) ?_)
      norm_num [daysInMonthTable] <;> omega
  · refine (ymdOfDay_decomp _ y (58 + (if isLeapYear y then 1 else 0)) 1 ?_ hy (by omega) ?_ ?_).trans ?_
    · simp only [makeDay]; norm_num [monthStart_2] <;> omega
    · rw [daysInYear_eq]; omega
    · exact monthIdxFromDwy_eq1 _ _ (by omega) (by omega)
    · rw [monthStart_1]
      refine Prod.ext rfl (Prod.ext (by norm_num) ?_)
      norm_num [daysInMonthTable] <;> omega
  · refine (ymdOfDay_decomp _ y (89 + (if isLeapYear y then 1 else 0)) 2 ?_ hy (by omega) ?_ ?_).trans ?_
    · simp only [makeDay]; norm_num [monthStart_3] <;> omega
    · rw [daysInYear_eq]; omega
    · exact monthIdxFromDwy_eq2 _ _ (by omega) (by omega) (by omega)
    · rw [monthStart_2]
      refine Prod.ext rfl (Prod.ext (by norm_num) ?_)
      norm_num [daysInMonthTable] <;> omega
  · refine (ymdOfDay_decomp _ y (119 + (if isLeapYear y then 1 else 0)) 3 ?_ hy (by omega) ?_ ?_).trans ?_
    · simp only [makeDay]; norm_num [monthStart_4] <;> omega
    · rw [daysInYear_eq]; omega
    · exact monthIdxFromDwy_eq3 _ _ (by omega) (by omega) (by omega) (by omega)
    · rw [monthStart_3]
      refine Prod.ext rfl (Prod.ext (by norm_num) ?_)
      norm_num [daysInMonthTable] <;> omega
  · refine (ymdOfDay_decomp _ y (150 + (if isLeapYear y then 1 else 0)) 4 ?_ hy (by omega) ?_ ?_).trans ?_
    · simp only [makeDay]; norm_num [monthStart_5] <;> omega
    · rw [daysInYear_eq]; omega
    · exact monthIdxFromDwy_eq4 _ _ (by omega) (by omega) (by omega) (by omega) (by omega)
    · rw [monthStart_4]
      refine Prod.ext rfl (Prod.ext (by norm_num) ?_)
      norm_num [daysInMonthTable] <;> omega
  · refine (ymdOfDay_decomp _ y (180 + (if isLeapYear y then 1 else 0)) 5 ?_ hy (by omega) ?_ ?_).trans ?_
    · simp only [makeDay]; norm_num [monthStart_6] <;> omega
    · rw [daysInYear_eq]; omega
    · exact monthIdxFromDwy_eq5 _ _ (by omega) (by omega) (by omega) (by omega) (by omega) (by omega)
    · rw [monthStart_5]
      refine Prod.ext rfl (Prod.ext (by norm_num) ?_)
      norm_num [daysInMonthTable] <;> omega
  · refine (ymdOfDay_decomp _ y (211 + (if isLeapYear y then 1 else 0)) 6 ?_ hy (by omega) ?_ ?_).trans ?_
    · simp only [makeDay]; norm_num [monthStart_7] <;> omega
    · rw [daysInYear_eq]; omega
    · exact monthIdxFromDwy_eq6 _ _ (by omega) (by omega) (by omega) (by omega) (by omega) (by omega) (by omega)
    · rw [monthStart_6]
      refine Prod.ext rfl (Prod.ext (by norm_num) ?_)
      norm_num [daysInMonthTable] <;> omega
  · refine (ymdOfDay_decomp _ y (242 + (if isLeapYear y then 1 else 0)) 7 ?_ hy (by omega) ?_ ?_).trans ?_
    · simp only [makeDay]; norm_num [monthStart_8] <;> omega
    · rw [daysInYear_eq]; omega
    · exact monthIdxFromDwy_eq7 _ _ (by omega) (by omega) (by omega) (by omega) (by omega) (by omega) (by omega) (by omega)
    · rw [monthStart_7]
      refine Prod.ext rfl (Prod.ext (by norm_num) ?_)
      norm_num [daysInMonthTable] <;> omega
  · refine (ymdOfDay_decomp _ y (272 + (if isLeapYear y then 1 else 0)) 8 ?_ hy (by omega) ?_ ?_).trans ?_
    · simp only [makeDay]; norm_num [monthStart_9] <;> omega
    · rw [daysInYear_eq]; omega
    · exact monthIdxFromDwy_eq8 _ _ (by omega) (by omega) (by omega) (by omega) (by omega) (by omega) (by omega) (by omega) (by omega)
    · rw [monthStart_8]
      refine Prod.ext rfl (Prod.ext (by norm_num) ?_)
      norm_num [daysInMonthTable] <;> omega
  · refine (ymdOfDay_decomp _ y (303 + (if isLeapYear y then 1 else 0)) 9 ?_ hy (by omega) ?_ ?_).trans ?_
    · simp only [makeDay]; norm_num [monthStart_10] <;> omega
    · rw [daysInYear_eq]; omega
    · exact monthIdxFromDwy_eq9 _ _ (by omega) (by omega) (by omega) (by omega) (by omega) (by omega) (by omega) (by omega) (by omega) (by omega)
    · rw [monthStart_9]
      refine Prod.ext rfl (Prod.ext (by norm_num) ?_)
      norm_num [daysInMonthTable] <;> omega
  · refine (ymdOfDay_decomp _ y (333 + (if isLeapYear y then 1 else 0)) 10 ?_ hy (by omega) ?_ ?_).trans ?_
    · simp only [makeDay]; norm_num [monthStart_11] <;> omega
    · rw [daysInYear_eq]; omega
    · exact monthIdxFromDwy_eq10 _ _ (by omega) (by omega) (by omega) (by omega) (by omega) (by omega) (by omega) (by omega) (by omega) (by omega) (by omega)
    · rw [monthStart_10]
      refine Prod.ext rfl (Prod.ext (by norm_num) ?_)
      norm_num [daysInMonthTable] <;> omega
  · refine (ymdOfDay_decomp _ y (364 + (if isLeapYear y then 1 else 0)) 11 ?_ hy (by omega) ?_ ?_).trans ?_
    · simp only [makeDay]; norm_num [monthStart_0]
      rw [dayFromYear_succ, daysInYear_eq]; omega
    · rw [daysInYear_eq]; omega
    · exact monthIdxFromDwy_eq11 _ _ (by omega) (by omega) (by omega) (by omega) (by omega) (by omega) (by omega) (by omega) (by omega) (by omega) (by omega)
    · rw [monthStart_11]
      refine Prod.ext rfl (Prod.ext (by norm_num) ?_)
      norm_num [daysInMonthTable] <;> omega


theorem dayOfMs_mul_add (D r : Int) (h1 : 0 ≤ r) (h2 : r < msPerDay) :
    dayOfMs (D * msPerDay + r) = D := by
  simp only [dayOfMs, msPerDay] at *
  omega

theorem dayOfMs_dateUTCms (y m0 d : Int) : dayOfMs (dateUTCms y m0 d) = makeDay y m0 d := by
  have h := dayOfMs_mul_add (makeDay y m0 d) 0 le_rfl (by norm_num [msPerDay])
  simpa [dateUTCms] using h

theorem ymdOfMs_dateUTCms (y m0 d : Int) :
    ymdOfMs (dateUTCms y m0 d) = ymdOfDay (makeDay y m0 d) := by
  rw [ymdOfMs, dayOfMs_dateUTCms]

theorem localMs_newDateMs (tz y m0 d : Int) :
    localMs tz (newDateMs tz y m0 d) = dateUTCms y m0 d := by
  simp only [localMs, newDateMs]
  ring

theorem ymdOfMs_local_newDateMs (tz y m0 d : Int) :
    ymdOfMs (localMs tz (newDateMs tz y m0 d)) = ymdOfDay (makeDay y m0 d) := by
  rw [localMs_newDateMs, ymdOfMs_dateUTCms]

theorem ymdOfMs_local_dateUTCms (tz y m0 d : Int) (h0 : 0 ≤ tz) (h1 : tz < msPerDay) :
    ymdOfMs (localMs tz (dateUTCms y m0 d)) = ymdOfDay (makeDay y m0 d) := by
  have : localMs tz (dateUTCms y m0 d) = makeDay y m0 d * msPerDay + tz := by
    simp only [localMs, dateUTCms]
  rw [ymdOfMs, this, dayOfMs_mul_add _ _ h0 h1]

/-! ## Decimal rendering and memcmp comparison lemmas -/

theorem digitChar_toNat (n : Nat) (h : n < 10) : (digitChar n).toNat = 48 + n := by
  interval_cases n <;> rfl

theorem digitChar_inj (a b : Nat) (ha : a < 10) (hb : b < 10) :
    digitChar a = digitChar b ↔ a = b := by
  constructor
  · intro h
    have := congrArg Char.toNat h
    rw [digitChar_toNat a ha, digitChar_toNat b hb] at this
    omega
  · intro h; rw [h]

theorem natToCharsAux_irrel (f1 : Nat) :
    ∀ (f2 n : Nat), n < f1 → n < f2 → natToCharsAux f1 n = natToCharsAux f2 n := by
  induction f1 with
  | zero => intro f2 n h1 h2; omega
  | succ f ih =>
    intro f2 n h1 h2
    match f2, h2 with
    | g + 1, h2 =>
      rw [natToCharsAux, natToCharsAux]
      by_cases h10 : n < 10
      · rw [if_pos h10, if_pos h10]
      · rw [if_neg h10, if_neg h10, ih g (n / 10) (by omega) (by omega)]

theorem natToChars_lt10 (n : Nat) (h : n < 10) : natToChars n = [digitChar n] := by
  rw [natToChars, natToCharsAux, if_pos h]

theorem natToChars_ge10 (n : Nat) (h : 10 ≤ n) :
    natToChars n = natToChars (n / 10) ++ [digitChar (n % 10)] := by
  rw [natToChars, natToChars, natToCharsAux, if_neg (by omega),
    natToCharsAux_irrel n (n / 10 + 1) (n / 10) (by omega) (by omega)]

theorem natToChars_2digit (n : Nat) (h1 : 10 ≤ n) (h2 : n < 100) :
    natToChars n = [digitChar (n / 10), digitChar (n % 10)] := by
  rw [natToChars_ge10 n h1, natToChars_lt10 (n / 10) (by omega)]
  rfl

theorem natToChars_3digit (n : Nat) (h1 : 100 ≤ n) (h2 : n < 1000) :
    natToChars n =
      [digitChar (n / 100), digitChar (n / 10 % 10), digitChar (n % 10)] := by
  rw [natToChars_ge10 n (by omega), natToChars_2digit (n / 10) (by omega) (by omega)]
  have e1 : n / 10 / 10 = n / 100 := by omega
  rw [e1]
  rfl

theorem natToChars_4digit (n : Nat) (h1 : 1000 ≤ n) (h2 : n < 10000) :
    natToChars n =
      [digitChar (n / 1000), digitChar (n / 100 % 10), digitChar (n / 10 % 10),
        digitChar (n % 10)] := by
  rw [natToChars_ge10 n (by omega), natToChars_3digit (n / 10) (by omega) (by omega)]
  have e1 : n / 10 / 100 = n / 1000 := by omega
  have e2 : n / 10 / 10 % 10 = n / 100 % 10 := by omega
  rw [e1, e2]
  rfl

theorem padTo2_eq (n : Nat) (h : n < 100) :
    padTo 2 (natToChars n) = [digitChar (n / 10), digitChar (n % 10)] := by
  by_cases h10 : n < 10
  · rw [natToChars_lt10 n h10]
    have e1 : n / 10 = 0 := by omega
    have e2 : n % 10 = n := by omega
    rw [padTo, e1, e2]
    rfl
  · rw [natToChars_2digit n (by omega) h, padTo]
    rfl

theorem padTo4_eq (n : Nat) (h : n < 10000) :
    padTo 4 (natToChars n) =
      [digitChar (n / 1000), digitChar (n / 100 % 10), digitChar (n / 10 % 10),
        digitChar (n % 10)] := by
  by_cases h10 : n < 10
  · rw [natToChars_lt10 n h10, padTo]
    have e1 : n / 1000 = 0 := by omega
    have e2 : n / 100 % 10 = 0 := by omega
    have e3 : n / 10 % 10 = 0 := by omega
    have e4 : n % 10 = n := by omega
    rw [e1, e2, e3, e4]
    rfl
  by_cases h100 : n < 100
  · rw [natToChars_2digit n (by omega) h100, padTo]
    have e1 : n / 1000 = 0 := by omega
    have e2 : n / 100 % 10 = 0 := by omega
    have e3 : n / 10 % 10 = n / 10 := by omega
    rw [e1, e2, e3]
    rfl
  by_cases h1000 : n < 1000
  · rw [natToChars_3digit n (by omega) h1000, padTo]
    have e1 : n / 1000 = 0 := by omega
    have e2 : n / 100 % 10 = n / 100 := by omega
    rw [e1, e2]
    rfl
  · rw [natToChars_4digit n (by omega) h, padTo]
    rfl

theorem isoChars_eq (y m d : Nat) (hy : y < 10000) (hm : m < 100) (hd : d < 100) :
    isoChars y m d =
      [digitChar (y / 1000), digitChar (y / 100 % 10), digitChar (y / 10 % 10),
        digitChar (y % 10), '-', digitChar (m / 10), digitChar (m % 10), '-',
        digitChar (d / 10), digitChar (d % 10)] := by
  rw [isoChars, padTo4_eq y hy, padTo2_eq m hm, padTo2_eq d hd]
  rfl

theorem memLe_cons (a b : Char) (as bs : List Char) :
    memLe (a :: as) (b :: bs) = true ↔
      (a.toNat < b.toNat ∨ (a.toNat = b.toNat ∧ memLe as bs = true)) := by
  rw [memLe]
  split_ifs with h1 h2
  · simp only [eq_self_iff_true, true_iff]
    exact Or.inl h1
  · constructor
    · intro h; simp at h
    · rintro (h | ⟨h, _⟩) <;> omega
  · constructor
    · intro h; exact Or.inr ⟨by omega, h⟩
    · rintro (h | ⟨_, h⟩)
      · omega
      · exact h

theorem memLe_nil : memLe [] [] = true := rfl

theorem lexEnd (da db da2 db2 : Nat)
    (h1 : da ≤ 9) (h2 : db ≤ 9) (h3 : da2 ≤ 9) (h4 : db2 ≤ 9) :
    (48 + da < 48 + da2 ∨ (48 + da = 48 + da2 ∧ (48 + db < 48 + db2 ∨ 48 + db = 48 + db2))) ↔
      10 * da + db ≤ 10 * da2 + db2 := by
  omega

theorem lexStep10 (a b a2 b2 : Nat) (ha : a ≤ 9) (hb : b ≤ 9) (ha2 : a2 ≤ 9) (hb2 : b2 ≤ 9)
    (X Y : Prop) (hXY : X ↔ Y) :
    (48 + a < 48 + a2 ∨ (48 + a = 48 + a2 ∧ (48 + b < 48 + b2 ∨ (48 + b = 48 + b2 ∧ X)))) ↔
      (10 * a + b < 10 * a2 + b2 ∨ (10 * a + b = 10 * a2 + b2 ∧ Y)) := by
  constructor
  · rintro (h | ⟨h1, (h | ⟨h2, hx⟩)⟩)
    · exact Or.inl (by omega)
    · exact Or.inl (by omega)
    · exact Or.inr ⟨by omega, hXY.mp hx⟩
  · rintro (h | ⟨h1, hy⟩)
    · by_cases hc : a < a2
      · exact Or.inl (by omega)
      · exact Or.inr ⟨by omega, Or.inl (by omega)⟩
    · exact Or.inr ⟨by omega, Or.inr ⟨by omega, hXY.mpr hy⟩⟩

theorem lexStep100 (A B A2 B2 : Nat) (hB : B ≤ 99) (hB2 : B2 ≤ 99)
    (X Y : Prop) (hXY : X ↔ Y) :
    (A < A2 ∨ (A = A2 ∧ (B < B2 ∨ (B = B2 ∧ X)))) ↔
      (100 * A + B < 100 * A2 + B2 ∨ (100 * A + B = 100 * A2 + B2 ∧ Y)) := by
  constructor
  · rintro (h | ⟨h1, (h | ⟨h2, hx⟩)⟩)
    · exact Or.inl (by omega)
    · exact Or.inl (by omega)
    · exact Or.inr ⟨by omega, hXY.mp hx⟩
  · rintro (h | ⟨h1, hy⟩)
    · by_cases hc : A < A2
      · exact Or.inl (by omega)
      · exact Or.inr ⟨by omega, Or.inl (by omega)⟩
    · exact Or.inr ⟨by omega, Or.inr ⟨by omega, hXY.mpr hy⟩⟩

theorem memLe_iso_iff (y1 m1 d1 y2 m2 d2 : Nat)
    (hy1 : y1 < 10000) (hm1 : m1 < 100) (hd1 : d1 < 100)
    (hy2 : y2 < 10000) (hm2 : m2 < 100) (hd2 : d2 < 100) :
    memLe (isoChars y1 m1 d1) (isoChars y2 m2 d2) = true ↔
      (y1 < y2 ∨ (y1 = y2 ∧ (m1 < m2 ∨ (m1 = m2 ∧ d1 ≤ d2)))) := by
  rw [isoChars_eq y1 m1 d1 hy1 hm1 hd1, isoChars_eq y2 m2 d2 hy2 hm2 hd2]
  simp only [memLe_cons, memLe_nil, eq_self_iff_true, and_true]
  rw [digitChar_toNat (y1 / 1000) (by omega), digitChar_toNat (y2 / 1000) (by omega),
    digitChar_toNat (y1 / 100 % 10) (by omega), digitChar_toNat (y2 / 100 % 10) (by omega),
    digitChar_toNat (y1 / 10 % 10) (by omega), digitChar_toNat (y2 / 10 % 10) (by omega),
    digitChar_toNat (y1 % 10) (by omega), digitChar_toNat (y2 % 10) (by omega),
    digitChar_toNat (m1 / 10) (by omega), digitChar_toNat (m2 / 10) (by omega),
    digitChar_toNat (m1 % 10) (by omega), digitChar_toNat (m2 % 10) (by omega),
    digitChar_toNat (d1 / 10) (by omega), digitChar_toNat (d2 / 10) (by omega),
    digitChar_toNat (d1 % 10) (by omega), digitChar_toNat (d2 % 10) (by omega),
    show ('-').toNat = 45 from rfl]
  simp only [eq_false (by norm_num : ¬ ((45 : Nat) < 45)), false_or, true_and]
  have hD := lexEnd (d1 / 10) (d1 % 10) (d2 / 10) (d2 % 10)
    (by omega) (by omega) (by omega) (by omega)
  have hM := lexStep10 (m1 / 10) (m1 % 10) (m2 / 10) (m2 % 10)
    (by omega) (by omega) (by omega) (by omega) _ _ hD
  have hYcd := lexStep10 (y1 / 10 % 10) (y1 % 10) (y2 / 10 % 10) (y2 % 10)
    (by omega) (by omega) (by omega) (by omega) _ _ hM
  have hYab := lexStep10 (y1 / 1000) (y1 / 100 % 10) (y2 / 1000) (y2 / 100 % 10)
    (by omega) (by omega) (by omega) (by omega) _ _ hYcd
  have hY := lexStep100 (10 * (y1 / 1000) + y1 / 100 % 10) (10 * (y1 / 10 % 10) + y1 % 10)
    (10 * (y2 / 1000) + y2 / 100 % 10) (10 * (y2 / 10 % 10) + y2 % 10)
    (by omega) (by omega)
    (10 * (m1 / 10) + m1 % 10 < 10 * (m2 / 10) + m2 % 10 ∨
      (10 * (m1 / 10) + m1 % 10 = 10 * (m2 / 10) + m2 % 10 ∧
        10 * (d1 / 10) + d1 % 10 ≤ 10 * (d2 / 10) + d2 % 10)) _ Iff.rfl
  have hr1 : y1 = 100 * (10 * (y1 / 1000) + y1 / 100 % 10) + (10 * (y1 / 10 % 10) + y1 % 10) := by
    omega
  have hr2 : y2 = 100 * (10 * (y2 / 1000) + y2 / 100 % 10) + (10 * (y2 / 10 % 10) + y2 % 10) := by
    omega
  have hr3 : m1 = 10 * (m1 / 10) + m1 % 10 := by omega
  have hr4 : m2 = 10 * (m2 / 10) + m2 % 10 := by omega
  have hr5 : d1 = 10 * (d1 / 10) + d1 % 10 := by omega
  have hr6 : d2 = 10 * (d2 / 10) + d2 % 10 := by omega
  refine hYab.trans (hY.trans ?_)
  exact iff_of_eq (by rw [← hr1, ← hr2, ← hr3, ← hr4, ← hr5, ← hr6])

theorem eqDigits (ya yb yc yd ma mb da db ya2 yb2 yc2 yd2 ma2 mb2 da2 db2 : Nat)
    (g1 : 48 + ya = 48 + ya2) (g2 : 48 + yb = 48 + yb2) (g3 : 48 + yc = 48 + yc2)
    (g4 : 48 + yd = 48 + yd2) (g5 : 48 + ma = 48 + ma2) (g6 : 48 + mb = 48 + mb2)
    (g7 : 48 + da = 48 + da2) (g8 : 48 + db = 48 + db2) :
    1000 * ya + 100 * yb + 10 * yc + yd = 1000 * ya2 + 100 * yb2 + 10 * yc2 + yd2 ∧
      10 * ma + mb = 10 * ma2 + mb2 ∧ 10 * da + db = 10 * da2 + db2 := by
  omega

theorem isoChars_inj (y1 m1 d1 y2 m2 d2 : Nat)
    (hy1 : y1 < 10000) (hm1 : m1 < 100) (hd1 : d1 < 100)
    (hy2 : y2 < 10000) (hm2 : m2 < 100) (hd2 : d2 < 100) :
    isoChars y1 m1 d1 = isoChars y2 m2 d2 ↔ (y1 = y2 ∧ m1 = m2 ∧ d1 = d2) := by
  rw [isoChars_eq y1 m1 d1 hy1 hm1 hd1, isoChars_eq y2 m2 d2 hy2 hm2 hd2]
  simp only [List.cons.injEq, and_true]
  constructor
  · rintro ⟨e1, e2, e3, e4, -, e5, e6, -, e7, e8⟩
    have g1 := congrArg Char.toNat e1
    have g2 := congrArg Char.toNat e2
    have g3 := congrArg Char.toNat e3
    have g4 := congrArg Char.toNat e4
    have g5 := congrArg Char.toNat e5
    have g6 := congrArg Char.toNat e6
    have g7 := congrArg Char.toNat e7
    have g8 := congrArg Char.toNat e8
    rw [digitChar_toNat (y1 / 1000) (by omega), digitChar_toNat (y2 / 1000) (by omega)] at g1
    rw [digitChar_toNat (y1 / 100 % 10) (by omega),
      digitChar_toNat (y2 / 100 % 10) (by omega)] at g2
    rw [digitChar_toNat (y1 / 10 % 10) (by omega),
      digitChar_toNat (y2 / 10 % 10) (by omega)] at g3
    rw [digitChar_toNat (y1 % 10) (by omega), digitChar_toNat (y2 % 10) (by omega)] at g4
    rw [digitChar_toNat (m1 / 10) (by omega), digitChar_toNat (m2 / 10) (by omega)] at g5
    rw [digitChar_toNat (m1 % 10) (by omega), digitChar_toNat (m2 % 10) (by omega)] at g6
    rw [digitChar_toNat (d1 / 10) (by omega), digitChar_toNat (d2 / 10) (by omega)] at g7
    rw [digitChar_toNat (d1 % 10) (by omega), digitChar_toNat (d2 % 10) (by omega)] at g8
    have he := eqDigits (y1 / 1000) (y1 / 100 % 10) (y1 / 10 % 10) (y1 % 10)
      (m1 / 10) (m1 % 10) (d1 / 10) (d1 % 10)
      (y2 / 1000) (y2 / 100 % 10) (y2 / 10 % 10) (y2 % 10)
      (m2 / 10) (m2 % 10) (d2 / 10) (d2 % 10) g1 g2 g3 g4 g5 g6 g7 g8
    refine ⟨?_, ?_, ?_⟩
    · have := he.1
      omega
    · have := he.2.1
      omega
    · have := he.2.2
      omega
  · rintro ⟨rfl, rfl, rfl⟩
    tauto

theorem intToChars_nonneg (i : Int) (h : 0 ≤ i) : intToChars i = natToChars i.toNat := by
  rw [intToChars, if_neg (by omega)]

theorem padStart2_eq_padTo (l : List Char) : padStart2 l = padTo 2 l := rfl

theorem sqliteTextLe_mk (l1 l2 : List Char) :
    sqliteTextLe (String.mk l1) (String.mk l2) = memLe l1 l2 := rfl

theorem monthStartStr (year month : Int) (hy1 : 1000 ≤ year) (hy2 : year ≤ 9999)
    (hm1 : 1 ≤ month) (hm2 : month ≤ 12) :
    intToChars year ++ '-' :: (padStart2 (intToChars month) ++ ['-', '0', '1']) =
      isoChars year.toNat month.toNat 1 := by
  rw [intToChars_nonneg year (by omega), intToChars_nonneg month (by omega),
    padStart2_eq_padTo, natToChars_4digit year.toNat (by omega) (by omega),
    padTo2_eq month.toNat (by omega),
    isoChars_eq year.toNat month.toNat 1 (by omega) (by omega) (by omega)]
  rfl

theorem monthEndStr (year month lastDay : Int) (hy1 : 1000 ≤ year) (hy2 : year ≤ 9999)
    (hm1 : 1 ≤ month) (hm2 : month ≤ 12) (hd1 : 1 ≤ lastDay) (hd2 : lastDay ≤ 99) :
    intToChars year ++ '-' :: (padStart2 (intToChars month) ++
        '-' :: padStart2 (intToChars lastDay)) =
      isoChars year.toNat month.toNat lastDay.toNat := by
  rw [intToChars_nonneg year (by omega), intToChars_nonneg month (by omega),
    intToChars_nonneg lastDay (by omega), padStart2_eq_padTo, padStart2_eq_padTo,
    natToChars_4digit year.toNat (by omega) (by omega),
    padTo2_eq month.toNat (by omega), padTo2_eq lastDay.toNat (by omega),
    isoChars_eq year.toNat month.toNat lastDay.toNat (by omega) (by omega) (by omega)]
  rfl

theorem yearStartStr (year : Int) (hy1 : 1000 ≤ year) (hy2 : year ≤ 9999) :
    intToChars year ++ ['-', '0', '1', '-', '0', '1'] = isoChars year.toNat 1 1 := by
  rw [intToChars_nonneg year (by omega),
    natToChars_4digit year.toNat (by omega) (by omega),
    isoChars_eq year.toNat 1 1 (by omega) (by omega) (by omega)]
  rfl

theorem yearEndStr (year : Int) (hy1 : 1000 ≤ year) (hy2 : year ≤ 9999) :
    intToChars year ++ ['-', '1', '2', '-', '3', '1'] = isoChars year.toNat 12 31 := by
  rw [intToChars_nonneg year (by omega),
    natToChars_4digit year.toNat (by omega) (by omega),
    isoChars_eq year.toNat 12 31 (by omega) (by omega) (by omega)]
  rfl

/-! ## List lemmas: sorting, grouping, partitioned counting -/

/-! ## Sorting and grouping lemmas -/

theorem perm_insertByCountDesc (x : KeyStats) (l : List KeyStats) :
    List.Perm (insertByCountDesc x l) (x :: l) := by
  induction l with
  | nil => rfl
  | cons y ys ih =>
    rw [insertByCountDesc]
    split_ifs
    · exact (ih.cons y).trans (List.Perm.swap x y ys)
    · rfl

theorem perm_sortByCountDesc (l : List KeyStats) : List.Perm (sortByCountDesc l) l := by
  induction l with
  | nil => rfl
  | cons x xs ih => exact (perm_insertByCountDesc x (sortByCountDesc xs)).trans (ih.cons x)

theorem mem_insertByCountDesc {z x : KeyStats} {l : List KeyStats}
    (h : z ∈ insertByCountDesc x l) : z = x ∨ z ∈ l := by
  have := (perm_insertByCountDesc x l).mem_iff.mp h
  simpa using this

/-- The breakdown order produced by `ORDER BY count DESC`. -/
def sortedByCountDesc (l : List KeyStats) : Prop :=
  List.Pairwise (fun a b => b.count ≤ a.count) l

theorem sortedByCountDesc_insert (x : KeyStats) (l : List KeyStats)
    (h : sortedByCountDesc l) : sortedByCountDesc (insertByCountDesc x l) := by
  induction l with
  | nil => exact List.pairwise_singleton _ x
  | cons y ys ih =>
    rw [insertByCountDesc]
    rcases h with - | ⟨hy, hys⟩
    split_ifs with hc
    · refine List.Pairwise.cons ?_ (ih hys)
      intro z hz
      rcases mem_insertByCountDesc hz with rfl | hz
      · exact hc
      · exact hy z hz
    · refine List.Pairwise.cons ?_ (List.Pairwise.cons hy hys)
      intro z hz
      rcases hz with - | hz
      · omega
      · have := hy z (by assumption)
        omega

theorem sortedByCountDesc_sort (l : List KeyStats) : sortedByCountDesc (sortByCountDesc l) := by
  induction l with
  | nil => exact List.Pairwise.nil
  | cons x xs ih => exact sortedByCountDesc_insert x _ ih

theorem sortedByCountDesc_take (l : List KeyStats) (n : Nat) (h : sortedByCountDesc l) :
    sortedByCountDesc (l.take n) := by
  exact List.Pairwise.sublist (List.take_sublist n l) h

theorem sumCounts_eq_map_sum (l : List KeyStats) :
    sumCounts l = (l.map (fun s => s.count)).sum := by
  have aux : ∀ (l : List KeyStats) (a : Nat),
      l.foldl (fun sum stat => sum + stat.count) a = a + (l.map (fun s => s.count)).sum := by
    intro l
    induction l with
    | nil => intro a; simp
    | cons x xs ih => intro a; simp [ih]; omega
  simpa using aux l 0

theorem sumCounts_perm {l1 l2 : List KeyStats} (h : List.Perm l1 l2) :
    sumCounts l1 = sumCounts l2 := by
  rw [sumCounts_eq_map_sum, sumCounts_eq_map_sum]
  exact (h.map (fun s => s.count)).sum_eq

theorem filter_split_length (l : List Row) (name : String) :
    (l.filter (fun x => x.keyName == name)).length +
      (l.filter (fun x => ¬ x.keyName == name)).length = l.length := by
  induction l with
  | nil => rfl
  | cons x xs ih =>
    rw [List.filter_cons, List.filter_cons]
    by_cases h : (x.keyName == name) = true
    · rw [if_pos h, if_neg (by simp [h])]
      simp only [List.length_cons]
      omega
    · rw [if_neg h, if_pos (by simp [h])]
      simp only [List.length_cons]
      omega

theorem groupCountsAux_irrel (f1 : Nat) :
    ∀ (f2 : Nat) (l : List Row), l.length ≤ f1 → l.length ≤ f2 →
      groupCountsAux f1 l = groupCountsAux f2 l := by
  induction f1 with
  | zero =>
    intro f2 l h1 h2
    match l, h1 with
    | [], _ =>
      match f2 with
      | 0 => rfl
      | g + 1 => rfl
  | succ f ih =>
    intro f2 l h1 h2
    match l with
    | [] =>
      match f2 with
      | 0 => rfl
      | g + 1 => rfl
    | r :: rest =>
      match f2, h2 with
      | g + 1, h2 =>
        rw [groupCountsAux, groupCountsAux]
        have hle := List.length_filter_le (fun x => ¬ x.keyName == r.keyName) rest
        simp only [List.length_cons] at h1 h2
        rw [ih g (rest.filter (fun x => ¬ x.keyName == r.keyName)) (by omega) (by omega)]

theorem groupCounts_nil : groupCounts [] = [] := rfl

theorem groupCounts_cons (r : Row) (rest : List Row) :
    groupCounts (r :: rest) =
      ⟨r.keyName, 1 + (rest.filter (fun x => x.keyName == r.keyName)).length⟩ ::
        groupCounts (rest.filter (fun x => ¬ x.keyName == r.keyName)) := by
  rw [groupCounts, groupCounts]
  simp only [List.length_cons]
  rw [groupCountsAux]
  have hle := List.length_filter_le (fun x => ¬ x.keyName == r.keyName) rest
  rw [groupCountsAux_irrel rest.length
    (rest.filter (fun x => ¬ x.keyName == r.keyName)).length
    (rest.filter (fun x => ¬ x.keyName == r.keyName)) (by omega) (by omega)]

theorem groupCounts_sum (l : List Row) :
    sumCounts (groupCounts l) = l.length := by
  have H : ∀ (n : Nat) (l : List Row), l.length ≤ n → sumCounts (groupCounts l) = l.length := by
    intro n
    induction n with
    | zero =>
      intro l hl
      match l, hl with
      | [], _ => rfl
    | succ n ih =>
      intro l hl
      match l with
      | [] => rfl
      | r :: rest =>
        rw [groupCounts_cons, sumCounts_eq_map_sum]
        simp only [List.map_cons, List.sum_cons]
        rw [← sumCounts_eq_map_sum]
        have hrec := ih (rest.filter (fun x => ¬ x.keyName == r.keyName)) (by
          have h1 := List.length_filter_le (fun x => ¬ x.keyName == r.keyName) rest
          simp only [List.length_cons] at hl
          omega)
        rw [hrec]
        have hsplit := filter_split_length rest r.keyName
        simp only [List.length_cons]
        omega
  exact H l.length l le_rfl

theorem perm_insertByTs (x : SavedKeystroke) (l : List SavedKeystroke) :
    List.Perm (insertByTs x l) (x :: l) := by
  induction l with
  | nil => rfl
  | cons y ys ih =>
    rw [insertByTs]
    split_ifs
    · exact (ih.cons y).trans (List.Perm.swap x y ys)
    · rfl

theorem perm_sortByTs (l : List SavedKeystroke) : List.Perm (sortByTs l) l := by
  induction l with
  | nil => rfl
  | cons x xs ih => exact (perm_insertByTs x (sortByTs xs)).trans (ih.cons x)

theorem mem_insertByTs {z x : SavedKeystroke} {l : List SavedKeystroke}
    (h : z ∈ insertByTs x l) : z = x ∨ z ∈ l := by
  have := (perm_insertByTs x l).mem_iff.mp h
  simpa using this

/-- `ORDER BY timestamp` ascending. -/
def sortedByTsAsc (l : List SavedKeystroke) : Prop :=
  List.Pairwise (fun a b => a.timestamp ≤ b.timestamp) l

theorem sortedByTsAsc_insert (x : SavedKeystroke) (l : List SavedKeystroke)
    (h : sortedByTsAsc l) : sortedByTsAsc (insertByTs x l) := by
  induction l with
  | nil => exact List.pairwise_singleton _ x
  | cons y ys ih =>
    rw [insertByTs]
    rcases h with - | ⟨hy, hys⟩
    split_ifs with hc
    · refine List.Pairwise.cons ?_ (ih hys)
      intro z hz
      rcases mem_insertByTs hz with rfl | hz
      · exact hc
      · exact hy z hz
    · refine List.Pairwise.cons ?_ (List.Pairwise.cons hy hys)
      intro z hz
      rcases hz with - | hz
      · omega
      · have := hy z (by assumption)
        omega

theorem sortedByTsAsc_sort (l : List SavedKeystroke) : sortedByTsAsc (sortByTs l) := by
  induction l with
  | nil => exact List.Pairwise.nil
  | cons x xs ih => exact sortedByTsAsc_insert x _ ih

theorem sum_map_add_distrib (L : List Nat) (f g : Nat → Nat) :
    (L.map (fun j => f j + g j)).sum = (L.map f).sum + (L.map g).sum := by
  induction L with
  | nil => rfl
  | cons x xs ih => simp [ih]; omega

theorem sum_indicator_of_unique (L : Nat) (q : Nat → Bool) (j0 : Nat)
    (hj0 : j0 < L) (hq : q j0 = true) (huniq : ∀ j, j < L → q j = true → j = j0) :
    ((List.range L).map (fun j => if q j = true then (1 : Nat) else 0)).sum = 1 := by
  induction L with
  | zero => omega
  | succ n ih =>
    rw [List.range_succ, List.map_append, List.sum_append]
    by_cases hl : j0 = n
    · subst hl
      have hz : ((List.range j0).map (fun j => if q j = true then (1 : Nat) else 0)).sum = 0 := by
        rw [List.sum_eq_zero]
        intro x hx
        simp only [List.mem_map, List.mem_range] at hx
        obtain ⟨j, hj, rfl⟩ := hx
        rw [if_neg]
        intro hqj
        have := huniq j (by omega) hqj
        omega
      rw [hz]
      simp [hq]
    · have hj0' : j0 < n := by omega
      rw [ih hj0' (fun j hj hqj => huniq j (by omega) hqj)]
      have : q n = false := by
        rcases hqn : q n with - | -
        · rfl
        · have := huniq n (by omega) hqn
          omega
      simp [this]

theorem sum_indicator_of_none (L : Nat) (q : Nat → Bool)
    (h : ∀ j, j < L → ¬ q j = true) :
    ((List.range L).map (fun j => if q j = true then (1 : Nat) else 0)).sum = 0 := by
  rw [List.sum_eq_zero]
  intro x hx
  simp only [List.mem_map, List.mem_range] at hx
  obtain ⟨j, hj, rfl⟩ := hx
  rw [if_neg (h j hj)]

/-- Partitioning a filtered count over a family of mutually exclusive
per-index filters that cover the predicate. -/
theorem length_filter_eq_sum_range (l : List Row) (P : Row → Bool) (g : Nat → Row → Bool)
    (L : Nat)
    (hcov : ∀ x, x ∈ l → (P x = true ↔ ∃ j, j < L ∧ g j x = true))
    (huniq : ∀ x, x ∈ l → ∀ j1 j2, j1 < L → j2 < L → g j1 x = true → g j2 x = true → j1 = j2) :
    (l.filter P).length = ((List.range L).map (fun j => (l.filter (g j)).length)).sum := by
  induction l with
  | nil => simp
  | cons x xs ih =>
    have ihx := ih (fun z hz => hcov z (List.mem_cons_of_mem x hz))
      (fun z hz => huniq z (List.mem_cons_of_mem x hz))
    have hstep : ∀ j, ((x :: xs).filter (g j)).length =
        (if g j x = true then (1 : Nat) else 0) + (xs.filter (g j)).length := by
      intro j
      rw [List.filter_cons]
      split_ifs with h <;> simp [h] <;> omega
    have hmapeq : ((List.range L).map (fun j => ((x :: xs).filter (g j)).length)).sum =
        ((List.range L).map (fun j => (if g j x = true then (1 : Nat) else 0) +
          (xs.filter (g j)).length)).sum := by
      congr 1
      exact List.map_congr_left (fun j _ => hstep j)
    rw [hmapeq, sum_map_add_distrib]
    rw [List.filter_cons]
    by_cases hP : P x = true
    · obtain ⟨j0, hj0, hgj0⟩ := (hcov x (List.mem_cons_self x xs)).mp hP
      rw [if_pos hP]
      rw [sum_indicator_of_unique L (fun j => g j x) j0 hj0 hgj0
        (fun j hj hq => huniq x (List.mem_cons_self x xs) j j0 hj hj0 hq hgj0)]
      simp only [List.length_cons]
      omega
    · rw [if_neg hP]
      rw [sum_indicator_of_none L (fun j => g j x) (fun j hj hq => by
        exact hP ((hcov x (List.mem_cons_self x xs)).mpr ⟨j, hj, hq⟩))]
      omega

/-! ## Claims: buffer retry, save guard, restore guard -/

/-! ## Concrete fixtures used by witnesses and counterexamples -/

def repoClosed : RepoState := ⟨[], "./keyboard-stats.db", false⟩

def repoEmpty : RepoState := KeystrokeRepository.initDb repoClosed

def ksA : Keystroke := ⟨65, "A", 1704067200000⟩

def ksB : Keystroke := ⟨66, "B", 1704070800000⟩

def ksDec : Keystroke := ⟨67, "C", 1734220800000⟩

/-! ## Buffer retry helper -/

/-- Full behaviour of `flushWithRetry` from attempt 0, by cases on which
attempts fail. -/
theorem flushWithRetry_spec (failsAt : Nat → Bool) (store batch : List Keystroke) :
    (flushWithRetry failsAt store batch 0).attempts ≤ maxRetries + 1 ∧
      List.Chain' (fun a b => b = 2 * a) (flushWithRetry failsAt store batch 0).delays ∧
      ((flushWithRetry failsAt store batch 0).success = true →
        (flushWithRetry failsAt store batch 0).store = store ++ batch) ∧
      ((flushWithRetry failsAt store batch 0).success = false →
        (flushWithRetry failsAt store batch 0).store = store ∧
          (flushWithRetry failsAt store batch 0).attempts = maxRetries + 1) ∧
      (failsAt 0 = true ∧ failsAt 1 = true ∧ failsAt 2 = true ∧ failsAt 3 = true →
        (flushWithRetry failsAt store batch 0).success = false) := by
  rcases h0 : failsAt 0 <;> rcases h1 : failsAt 1 <;> rcases h2 : failsAt 2 <;>
    rcases h3 : failsAt 3 <;>
    simp [flushWithRetry, flushWithRetryGo, maxRetries, retryDelay, h0, h1, h2, h3,
      List.Chain']

/-- C3 counterexample: when every write attempt fails, `flushWithRetry`
performs 4 write attempts in total (1 initial + `maxRetries = 3` retries),
contradicting the claimed bound of 3 total attempts. -/
theorem flushWithRetry_four_attempts_cex :
    (flushWithRetry (fun _ => true) [] [ksA] 0).attempts = 4 ∧
      ¬ (flushWithRetry (fun _ => true) [] [ksA] 0).attempts ≤ 3 := by
  decide

/-- C3 (amended): on write failure the batch is retried with the delay
doubling on each successive attempt, and at most `maxRetries + 1 = 4`
write attempts are made in total (1 initial plus 3 retries) before giving
up; a batch whose write eventually succeeds is appended to the durable
store exactly once, and a batch that never succeeds is not persisted at
all. -/
theorem flushWithRetry_retry_behaviour (failsAt : Nat → Bool) (store batch : List Keystroke) :
    (flushWithRetry failsAt store batch 0).attempts ≤ maxRetries + 1 ∧
      List.Chain' (fun a b => b = 2 * a) (flushWithRetry failsAt store batch 0).delays ∧
      ((flushWithRetry failsAt store batch 0).success = true →
        (flushWithRetry failsAt store batch 0).store = store ++ batch) ∧
      ((flushWithRetry failsAt store batch 0).success = false →
        (flushWithRetry failsAt store batch 0).store = store ∧
          (flushWithRetry failsAt store batch 0).attempts = maxRetries + 1) :=
  ⟨(flushWithRetry_spec failsAt store batch).1, (flushWithRetry_spec failsAt store batch).2.1,
    (flushWithRetry_spec failsAt store batch).2.2.1, (flushWithRetry_spec failsAt store batch).2.2.2.1⟩

theorem flushWithRetry_retry_behaviour_witness :
    (flushWithRetry (fun k => decide (k < 2)) [] [ksA] 0).success = true ∧
      (flushWithRetry (fun k => decide (k < 2)) [] [ksA] 0).store = [] ++ [ksA] ∧
      (flushWithRetry (fun k => decide (k < 2)) [] [ksA] 0).delays = [1000, 2000] :=
  ⟨by decide,
    (flushWithRetry_retry_behaviour (fun k => decide (k < 2)) [] [ksA]).2.2.1 (by decide),
    by decide⟩

/-- C4: when every write attempt of a flush fails, the whole failed batch
is put back at the front of the queue, in its original internal order,
ahead of the records added during the attempt window, and the durable
store is unchanged — no record is lost or duplicated. -/
theorem flush_failed_batch_requeued (failsAt : Nat → Bool)
    (buffer store newDuring : List Keystroke)
    (hbuf : buffer ≠ []) (hfail : ∀ i, failsAt i = true) :
    (flush failsAt false buffer store newDuring).buffer = buffer ++ newDuring ∧
      (flush failsAt false buffer store newDuring).store = store := by
  have hspec := flushWithRetry_spec failsAt store buffer
  have hsf : (flushWithRetry failsAt store buffer 0).success = false :=
    hspec.2.2.2.2 ⟨hfail 0, hfail 1, hfail 2, hfail 3⟩
  have hst := (hspec.2.2.2.1 hsf).1
  rw [flush]
  rw [if_neg (by simp)]
  rw [if_neg (by simp [hbuf])]
  rw [if_neg (by simp [hsf])]
  exact ⟨rfl, hst⟩

theorem flush_failed_batch_requeued_witness :
    (flush (fun _ => true) false [ksA, ksB] [] [ksDec]).buffer = [ksA, ksB, ksDec] ∧
      (flush (fun _ => true) false [ksA, ksB] [] [ksDec]).store = [] := by
  have h := flush_failed_batch_requeued (fun _ => true) [ksA, ksB] [] [ksDec]
    (by decide) (fun i => rfl)
  exact ⟨by rw [h.1]; decide, h.2⟩

/-- C10: `save` checks initialization before emptiness — on a store that
is not open it fails with `NotInitialized` for every input, the empty
batch included; on an open store the empty batch is a no-op that leaves
the state unchanged. -/
theorem save_initialization_before_emptiness (s : RepoState) (ks : List Keystroke) :
    (s.dbOpen = false → KeystrokeRepository.save s ks = .error .notInitialized) ∧
      (s.dbOpen = true → KeystrokeRepository.save s [] = .ok s) := by
  constructor
  · intro h
    rw [KeystrokeRepository.save, if_pos (by simp [h])]
  · intro h
    rw [KeystrokeRepository.save, if_neg (by simp [h])]
    simp

theorem save_initialization_before_emptiness_witness :
    KeystrokeRepository.save repoClosed [] = .error .notInitialized ∧
      KeystrokeRepository.save repoEmpty [] = .ok repoEmpty :=
  ⟨(save_initialization_before_emptiness repoClosed []).1 (by decide),
    (save_initialization_before_emptiness repoEmpty []).2 (by decide)⟩

/-- C7: `restore` on an open store with a path that does not exist on
disk fails with `BackupNotFound`; the existence check comes before the
store is closed or its file overwritten, so in this pure model the error
is returned with no successor state — the caller's open store and record
set are untouched. -/
theorem restore_missing_backup (s : RepoState) (p : String)
    (hopen : s.dbOpen = true) (hmissing : fsGet s.fs p = none) :
    KeystrokeRepository.restore s p = .error .backupNotFound := by
  rw [KeystrokeRepository.restore, if_neg (by simp [hopen]), hmissing]

theorem restore_missing_backup_witness :
    KeystrokeRepository.restore repoEmpty "./no-such-file" = .error .backupNotFound :=
  restore_missing_backup repoEmpty "./no-such-file" (by decide) (by decide)

/-! ## Claims: month validation -/

/-! ## Branch equations for getStatsByPeriod -/

theorem getStatsByPeriod_closed (tz : Int) (s : RepoState) (p : Period) (dateMs : Int)
    (h : s.dbOpen = false) :
    KeystrokeRepository.getStatsByPeriod tz s p dateMs = .error .notInitialized := by
  rw [KeystrokeRepository.getStatsByPeriod, if_pos (by simp [h])]

theorem getStatsByPeriod_noData (tz : Int) (s : RepoState) (p : Period) (dateMs : Int)
    (ho : s.dbOpen = true) (hd : KeystrokeRepository.activeData s = none) :
    KeystrokeRepository.getStatsByPeriod tz s p dateMs = .error .notInitialized := by
  rw [KeystrokeRepository.getStatsByPeriod, if_neg (by simp [ho]), hd]

theorem getStatsByPeriod_day_eq (tz : Int) (s : RepoState) (dateMs : Int) (d : StoreData)
    (ho : s.dbOpen = true) (hd : KeystrokeRepository.activeData s = some d) :
    KeystrokeRepository.getStatsByPeriod tz s .day dateMs =
      .ok (sortByCountDesc (groupCounts
        (d.rows.filter (fun r => r.date == toISODate dateMs)))) := by
  rw [KeystrokeRepository.getStatsByPeriod, if_neg (by simp [ho]), hd]

theorem getStatsByPeriod_month_eq (tz : Int) (s : RepoState) (dateMs : Int) (d : StoreData)
    (ho : s.dbOpen = true) (hd : KeystrokeRepository.activeData s = some d) :
    KeystrokeRepository.getStatsByPeriod tz s .month dateMs =
      .ok (sortByCountDesc (groupCounts (d.rows.filter (fun r =>
        sqliteTextLe (String.mk (intToChars (getFullYear tz dateMs) ++ '-' ::
          (padStart2 (intToChars (getMonthIdx tz dateMs + 1)) ++ ['-', '0', '1']))) r.date &&
        sqliteTextLe r.date (String.mk (intToChars (getFullYear tz dateMs) ++ '-' ::
          (padStart2 (intToChars (getMonthIdx tz dateMs + 1)) ++ '-' ::
            padStart2 (intToChars (getDate tz (newDateMs tz (getFullYear tz dateMs)
              (getMonthIdx tz dateMs + 1) 0)))))))))) := by
  rw [KeystrokeRepository.getStatsByPeriod, if_neg (by simp [ho]), hd]

theorem getStatsByPeriod_year_eq (tz : Int) (s : RepoState) (dateMs : Int) (d : StoreData)
    (ho : s.dbOpen = true) (hd : KeystrokeRepository.activeData s = some d) :
    KeystrokeRepository.getStatsByPeriod tz s .year dateMs =
      .ok (sortByCountDesc (groupCounts (d.rows.filter (fun r =>
        sqliteTextLe (String.mk (intToChars (getFullYear tz dateMs) ++
          ['-', '0', '1', '-', '0', '1'])) r.date &&
        sqliteTextLe r.date (String.mk (intToChars (getFullYear tz dateMs) ++
          ['-', '1', '2', '-', '3', '1'])))))) := by
  rw [KeystrokeRepository.getStatsByPeriod, if_neg (by simp [ho]), hd]

theorem getStatsByPeriod_ok_or_notInit (tz : Int) (s : RepoState) (p : Period) (dateMs : Int) :
    (∃ r, KeystrokeRepository.getStatsByPeriod tz s p dateMs = .ok r) ∨
      KeystrokeRepository.getStatsByPeriod tz s p dateMs = .error .notInitialized := by
  cases ho : s.dbOpen
  · exact Or.inr (getStatsByPeriod_closed tz s p dateMs ho)
  · cases hd : KeystrokeRepository.activeData s
    · exact Or.inr (getStatsByPeriod_noData tz s p dateMs ho hd)
    · cases p
      · exact Or.inl ⟨_, getStatsByPeriod_day_eq tz s dateMs _ ho hd⟩
      · exact Or.inl ⟨_, getStatsByPeriod_month_eq tz s dateMs _ ho hd⟩
      · exact Or.inl ⟨_, getStatsByPeriod_year_eq tz s dateMs _ ho hd⟩

theorem mapM_not_invalid {α β : Type} (f : α → Except DbError β) (l : List α)
    (h : ∀ a, f a ≠ .error .invalidPeriod) :
    l.mapM f ≠ .error .invalidPeriod := by
  induction l with
  | nil =>
    intro hc
    rw [List.mapM_nil] at hc
    simp only [pure, Except.pure] at hc
    exact Except.noConfusion hc
  | cons x xs ih =>
    rw [List.mapM_cons]
    cases hf : f x with
    | error e =>
      have he : e ≠ .invalidPeriod := fun hc => h x (by rw [hf, hc])
      simp only [hf, bind, Except.bind]
      intro hc
      exact he (Except.error.inj hc)
    | ok y =>
      cases hm : xs.mapM f with
      | error e =>
        simp only [hf, bind, Except.bind, hm]
        intro hc
        rw [← hm] at hc
        exact ih hc
      | ok ys =>
        simp only [hf, bind, Except.bind, hm, pure, Except.pure]
        intro hc
        exact Except.noConfusion hc

theorem getDailyTrendForMonth_not_invalid (tz : Int) (repo : RepoState) (year month : Int) :
    StatisticsService.getDailyTrendForMonth tz repo year month ≠ .error .invalidPeriod := by
  rw [StatisticsService.getDailyTrendForMonth]
  apply mapM_not_invalid
  intro i
  dsimp only
  rcases getStatsByPeriod_ok_or_notInit tz repo .day
      (dateUTCms year (month - 1) (i + 1 : Nat)) with ⟨r, hr⟩ | hr <;>
    rw [hr] <;> intro hc <;> simp [Except.map] at hc

/-- C8: `getMonthlyStats` validates the month before touching the cache
or the store: an out-of-range month fails with `InvalidPeriod`
immediately, with the cache unchanged and zero repository queries; an
in-range month never produces `InvalidPeriod`. -/
theorem getMonthlyStats_month_validation (tz : Int) (repo : RepoState) (now : Int)
    (cache : Cache) (year month : Int) :
    ((month < 1 ∨ 12 < month) →
      StatisticsService.getMonthlyStats tz repo now cache year month =
        ⟨.error .invalidPeriod, cache, 0⟩) ∧
    (1 ≤ month → month ≤ 12 →
      (StatisticsService.getMonthlyStats tz repo now cache year month).result ≠
        .error .invalidPeriod) := by
  constructor
  · intro h
    rw [StatisticsService.getMonthlyStats, if_pos h]
  · intro h1 h2
    rw [StatisticsService.getMonthlyStats, if_neg (by omega)]
    dsimp only
    rcases hg : getFromCache now cache ("monthly:" ++ String.mk (intToChars year) ++ ":" ++
        String.mk (intToChars month)) with ⟨gv, c1⟩
    rcases gv with - | cv
    · dsimp only
      rcases getStatsByPeriod_ok_or_notInit tz repo .month
          (newDateMs tz year (month - 1) 1) with ⟨r, hr⟩ | hr <;> rw [hr]
      · cases ht : StatisticsService.getDailyTrendForMonth tz repo year month with
        | error e =>
          have := getDailyTrendForMonth_not_invalid tz repo year month
          intro hc
          simp only at hc
          exact this (by rw [ht]; rw [← Except.error.inj hc])
        | ok tr =>
          intro hc
          simp only at hc
          exact Except.noConfusion hc
      · intro hc
        simp only at hc
        exact DbError.noConfusion (Except.error.inj hc)
    · rcases cv with v | v | v
      · dsimp only
        rcases getStatsByPeriod_ok_or_notInit tz repo .month
            (newDateMs tz year (month - 1) 1) with ⟨r, hr⟩ | hr <;> rw [hr]
        · cases ht : StatisticsService.getDailyTrendForMonth tz repo year month with
          | error e =>
            have := getDailyTrendForMonth_not_invalid tz repo year month
            intro hc
            simp only at hc
            exact this (by rw [ht]; rw [← Except.error.inj hc])
          | ok tr =>
            intro hc
            simp only at hc
            exact Except.noConfusion hc
        · intro hc
          simp only at hc
          exact DbError.noConfusion (Except.error.inj hc)
      · dsimp only
        intro hc
        exact Except.noConfusion hc
      · dsimp only
        rcases getStatsByPeriod_ok_or_notInit tz repo .month
            (newDateMs tz year (month - 1) 1) with ⟨r, hr⟩ | hr <;> rw [hr]
        · cases ht : StatisticsService.getDailyTrendForMonth tz repo year month with
          | error e =>
            have := getDailyTrendForMonth_not_invalid tz repo year month
            intro hc
            simp only at hc
            exact this (by rw [ht]; rw [← Except.error.inj hc])
          | ok tr =>
            intro hc
            simp only at hc
            exact Except.noConfusion hc
        · intro hc
          simp only at hc
          exact DbError.noConfusion (Except.error.inj hc)
  
theorem getMonthlyStats_month_validation_witness :
    StatisticsService.getMonthlyStats 0 repoEmpty 0 [] 2024 13 =
      ⟨.error .invalidPeriod, [], 0⟩ ∧
    (StatisticsService.getMonthlyStats 0 repoEmpty 0 [] 2024 1).result ≠
      .error .invalidPeriod :=
  ⟨(getMonthlyStats_month_validation 0 repoEmpty 0 [] 2024 13).1 (by decide),
    (getMonthlyStats_month_validation 0 repoEmpty 0 [] 2024 1).2 (by decide) (by decide)⟩

/-! ## Claim: sort invariant -/

theorem getStatsByPeriod_ok_sorted (tz : Int) (s : RepoState) (p : Period) (dateMs : Int)
    (r : List KeyStats) (h : KeystrokeRepository.getStatsByPeriod tz s p dateMs = .ok r) :
    sortedByCountDesc r := by
  cases ho : s.dbOpen
  · rw [getStatsByPeriod_closed tz s p dateMs ho] at h
    exact Except.noConfusion h
  · cases hd : KeystrokeRepository.activeData s
    · rw [getStatsByPeriod_noData tz s p dateMs ho hd] at h
      exact Except.noConfusion h
    · cases p
      · rw [getStatsByPeriod_day_eq tz s dateMs _ ho hd] at h
        rw [← Except.ok.inj h]
        exact sortedByCountDesc_sort _
      · rw [getStatsByPeriod_month_eq tz s dateMs _ ho hd] at h
        rw [← Except.ok.inj h]
        exact sortedByCountDesc_sort _
      · rw [getStatsByPeriod_year_eq tz s dateMs _ ho hd] at h
        rw [← Except.ok.inj h]
        exact sortedByCountDesc_sort _

/-- C9: the breakdown returned by `getStatsByPeriod` is sorted by count
descending (adjacent entries non-increasing), and hence so are the
`keyBreakdown`s of the daily, monthly, and yearly stats results (computed
against a fresh cache) and every `getTopKeys` result. -/
theorem breakdowns_sorted_by_count_desc (tz : Int) (s : RepoState) (p : Period)
    (dateMs : Int) (now : Int) (year month : Int) (limit : Nat) :
    (∀ r, KeystrokeRepository.getStatsByPeriod tz s p dateMs = .ok r →
      sortedByCountDesc r) ∧
    (∀ v c q, StatisticsService.getDailyStats tz s now [] dateMs = ⟨.ok v, c, q⟩ →
      sortedByCountDesc v.keyBreakdown) ∧
    (∀ v c q, StatisticsService.getMonthlyStats tz s now [] year month = ⟨.ok v, c, q⟩ →
      sortedByCountDesc v.keyBreakdown) ∧
    (∀ v c q, StatisticsService.getYearlyStats tz s now [] year = ⟨.ok v, c, q⟩ →
      sortedByCountDesc v.keyBreakdown) ∧
    (∀ r, StatisticsService.getTopKeys tz s p dateMs limit = .ok r →
      sortedByCountDesc r) := by
  refine ⟨fun r h => getStatsByPeriod_ok_sorted tz s p dateMs r h, ?_, ?_, ?_, ?_⟩
  · intro v c q h
    rw [StatisticsService.getDailyStats] at h
    dsimp only at h
    rcases hrr : KeystrokeRepository.getStatsByPeriod tz s .day
        (dateUTCms (getUTCFullYear dateMs) (getUTCMonthIdx dateMs) (getUTCDate dateMs))
      with e | bd
    · rw [hrr] at h
      exact Except.noConfusion ((SvcResult.mk.injEq _ _ _ _ _ _).mp h).1
    · rw [hrr] at h
      have hv := ((SvcResult.mk.injEq _ _ _ _ _ _).mp h).1
      rw [← Except.ok.inj hv]
      exact getStatsByPeriod_ok_sorted tz s .day _ bd hrr
  · intro v c q h
    rw [StatisticsService.getMonthlyStats] at h
    by_cases hm : month < 1 ∨ 12 < month
    · rw [if_pos hm] at h
      exact Except.noConfusion ((SvcResult.mk.injEq _ _ _ _ _ _).mp h).1
    · rw [if_neg hm] at h
      dsimp only at h
      rcases hrr : KeystrokeRepository.getStatsByPeriod tz s .month
          (newDateMs tz year (month - 1) 1) with e | bd
      · rw [hrr] at h
        exact Except.noConfusion ((SvcResult.mk.injEq _ _ _ _ _ _).mp h).1
      · rw [hrr] at h
        rcases htr : StatisticsService.getDailyTrendForMonth tz s year month with e | tr
        · rw [htr] at h
          exact Except.noConfusion ((SvcResult.mk.injEq _ _ _ _ _ _).mp h).1
        · rw [htr] at h
          have hv := ((SvcResult.mk.injEq _ _ _ _ _ _).mp h).1
          rw [← Except.ok.inj hv]
          exact getStatsByPeriod_ok_sorted tz s .month _ bd hrr
  · intro v c q h
    rw [StatisticsService.getYearlyStats] at h
    dsimp only at h
    rcases hrr : KeystrokeRepository.getStatsByPeriod tz s .year
        (newDateMs tz year 0 1) with e | bd
    · rw [hrr] at h
      exact Except.noConfusion ((SvcResult.mk.injEq _ _ _ _ _ _).mp h).1
    · rw [hrr] at h
      rcases htr : StatisticsService.getMonthlyTrendForYear tz s year with e | tr
      · rw [htr] at h
        exact Except.noConfusion ((SvcResult.mk.injEq _ _ _ _ _ _).mp h).1
      · rw [htr] at h
        have hv := ((SvcResult.mk.injEq _ _ _ _ _ _).mp h).1
        rw [← Except.ok.inj hv]
        exact getStatsByPeriod_ok_sorted tz s .year _ bd hrr
  · intro r h
    rw [StatisticsService.getTopKeys] at h
    rcases hrr : KeystrokeRepository.getStatsByPeriod tz s p dateMs with e | bd
    · rw [hrr] at h
      exact Except.noConfusion h
    · rw [hrr] at h
      simp only [Except.map] at h
      rw [← Except.ok.inj h]
      exact sortedByCountDesc_take _ _ (getStatsByPeriod_ok_sorted tz s p dateMs bd hrr)

theorem breakdowns_sorted_by_count_desc_witness :
    sortedByCountDesc [⟨"A", 2⟩, ⟨"B", 1⟩] :=
  (breakdowns_sorted_by_count_desc 0
      ((KeystrokeRepository.save repoEmpty [ksA, ksB, ⟨65, "A", 1704067200500⟩]).toOption.getD
        repoEmpty)
      .day 1704067200000 0 2024 1 5).1 [⟨"A", 2⟩, ⟨"B", 1⟩] (by decide)

/-! ## Claim: save/read-back round trip -/

/-! ## File-system and save helpers -/

theorem fsGet_fsSet_same (fs : FileSys) (p : String) (v : StoreData) :
    fsGet (fsSet fs p v) p = some v := by
  induction fs with
  | nil => rw [fsSet, fsGet, if_pos rfl]
  | cons kv rest ih =>
    rcases kv with ⟨q, w⟩
    rw [fsSet]
    by_cases h : q = p
    · rw [if_pos h, fsGet, if_pos rfl]
    · rw [if_neg h, fsGet, if_neg h, ih]

theorem fsGet_fsSet_other (fs : FileSys) (p q : String) (v : StoreData) (h : ¬ p = q) :
    fsGet (fsSet fs p v) q = fsGet fs q := by
  induction fs with
  | nil => simp [fsSet, fsGet, h]
  | cons kv rest ih =>
    rcases kv with ⟨a, w⟩
    rw [fsSet]
    by_cases ha : a = p
    · subst ha
      simp [fsGet, h]
    · rw [if_neg ha]
      by_cases haq : a = q
      · subst haq
        simp [fsGet]
      · simp [fsGet, haq, ih]

/-- The row written by `save` for the keystroke at offset `i`. -/
def savedRowOf (nextId : Nat) (p : Nat × Keystroke) : Row :=
  { id := nextId + p.1
    keyCode := p.2.keyCode
    keyName := p.2.keyName
    timestamp := p.2.timestamp
    date := toISODate p.2.timestamp
    hour := getUTCHours p.2.timestamp }

theorem save_ok_spec (s0 : RepoState) (d0 : StoreData) (batch : List Keystroke)
    (hopen : s0.dbOpen = true) (hd0 : KeystrokeRepository.activeData s0 = some d0) :
    ∃ s1, KeystrokeRepository.save s0 batch = .ok s1 ∧ s1.dbOpen = true ∧
      s1.dbPath = s0.dbPath ∧
      ∃ d1, KeystrokeRepository.activeData s1 = some d1 ∧
        d1.rows = d0.rows ++ batch.enum.map (savedRowOf d0.nextId) := by
  rw [KeystrokeRepository.save, if_neg (by simp [hopen])]
  by_cases hb : batch.length = 0
  · rw [if_pos hb]
    have hbe : batch = [] := List.length_eq_zero.mp hb
    subst hbe
    exact ⟨s0, rfl, hopen, rfl, d0, hd0, by simp⟩
  · rw [if_neg hb, hd0]
    refine ⟨_, rfl, hopen, rfl, _, fsGet_fsSet_same _ _ _, rfl⟩

theorem getByDateRange_eq (s : RepoState) (startMs endMs : Int) (d : StoreData)
    (ho : s.dbOpen = true) (hd : KeystrokeRepository.activeData s = some d) :
    KeystrokeRepository.getByDateRange s startMs endMs =
      .ok (sortByTs ((d.rows.filter
        (fun r => decide (startMs ≤ r.timestamp) && decide (r.timestamp ≤ endMs))).map
          rowSelect)) := by
  rw [KeystrokeRepository.getByDateRange, if_neg (by simp [ho]), hd]

/-- C5: saving a batch into an initially empty store and reading back a
range that covers all its timestamps returns exactly the batch as a
multiset of logical fields (ignoring assigned identifiers), each returned
record in range, ordered by timestamp ascending. -/
theorem save_then_getByDateRange_roundtrip (s0 : RepoState) (d0 : StoreData)
    (batch : List Keystroke) (startMs endMs : Int) (s1 : RepoState)
    (res : List SavedKeystroke)
    (hopen : s0.dbOpen = true) (hd0 : KeystrokeRepository.activeData s0 = some d0)
    (hempty : d0.rows = [])
    (hsave : KeystrokeRepository.save s0 batch = .ok s1)
    (hget : KeystrokeRepository.getByDateRange s1 startMs endMs = .ok res)
    (hcov : ∀ k ∈ batch, startMs ≤ k.timestamp ∧ k.timestamp ≤ endMs) :
    List.Perm (res.map (fun r => (r.keyCode, r.keyName, r.timestamp)))
        (batch.map (fun k => (k.keyCode, k.keyName, k.timestamp))) ∧
      sortedByTsAsc res ∧
      (∀ r ∈ res, startMs ≤ r.timestamp ∧ r.timestamp ≤ endMs) := by
  obtain ⟨s1x, hsavex, hopen1, -, d1, hd1, hrows⟩ := save_ok_spec s0 d0 batch hopen hd0
  rw [hsavex] at hsave
  obtain rfl : s1x = s1 := Except.ok.inj hsave
  rw [hempty, List.nil_append] at hrows
  have hmem : ∀ r ∈ d1.rows, ∃ k ∈ batch, r.keyCode = k.keyCode ∧ r.keyName = k.keyName ∧
      r.timestamp = k.timestamp := by
    intro r hr
    rw [hrows] at hr
    obtain ⟨⟨i, k⟩, hik, rfl⟩ := List.mem_map.mp hr
    have hkb : k ∈ batch := by
      have := List.mem_enum hik
      rw [this.2]
      exact List.getElem_mem _
    exact ⟨k, hkb, rfl, rfl, rfl⟩
  have hfilter : d1.rows.filter
      (fun r => decide (startMs ≤ r.timestamp) && decide (r.timestamp ≤ endMs)) = d1.rows := by
    rw [List.filter_eq_self]
    intro r hr
    obtain ⟨k, hk, -, -, hts⟩ := hmem r hr
    rw [hts]
    simp only [Bool.and_eq_true, decide_eq_true_eq]
    exact hcov k hk
  rw [getByDateRange_eq s1x startMs endMs d1 hopen1 hd1, hfilter] at hget
  have hres : res = sortByTs (d1.rows.map rowSelect) := (Except.ok.inj hget).symm
  refine ⟨?_, ?_, ?_⟩
  · have hperm : List.Perm res (d1.rows.map rowSelect) := by
      rw [hres]; exact perm_sortByTs _
    refine (hperm.map _).trans ?_
    rw [hrows, List.map_map, List.map_map]
    have : (fun r => ((rowSelect r).keyCode, (rowSelect r).keyName, (rowSelect r).timestamp)) ∘
        savedRowOf d0.nextId =
        (fun k => (k.keyCode, k.keyName, k.timestamp)) ∘ Prod.snd := rfl
    rw [show ((fun r => (r.keyCode, r.keyName, r.timestamp)) ∘ rowSelect) ∘
        savedRowOf d0.nextId =
        (fun k => (k.keyCode, k.keyName, k.timestamp)) ∘ (Prod.snd) from rfl]
    rw [← List.map_map, List.enum_map_snd]
  · rw [hres]
    exact sortedByTsAsc_sort _
  · intro r hr
    have hperm : List.Perm res (d1.rows.map rowSelect) := by
      rw [hres]; exact perm_sortByTs _
    have hr' := hperm.mem_iff.mp hr
    obtain ⟨row, hrow, rfl⟩ := List.mem_map.mp hr'
    obtain ⟨k, hk, -, -, hts⟩ := hmem row hrow
    rw [rowSelect, hts]
    exact hcov k hk

theorem save_then_getByDateRange_roundtrip_witness :
    List.Perm
      ((sortByTs (((KeystrokeRepository.activeData
          ((KeystrokeRepository.save repoEmpty [ksB, ksA]).toOption.getD repoEmpty)).getD
            emptyStore).rows.map rowSelect)).map (fun r => (r.keyCode, r.keyName, r.timestamp)))
      ([ksB, ksA].map (fun k => (k.keyCode, k.keyName, k.timestamp))) := by
  have h := save_then_getByDateRange_roundtrip repoEmpty emptyStore [ksB, ksA]
    1704060000000 1704080000000
    ((KeystrokeRepository.save repoEmpty [ksB, ksA]).toOption.getD repoEmpty)
    (sortByTs (((KeystrokeRepository.activeData
      ((KeystrokeRepository.save repoEmpty [ksB, ksA]).toOption.getD repoEmpty)).getD
        emptyStore).rows.map rowSelect))
    (by decide) (by decide) (by decide) (by decide) (by decide) (by decide)
  exact h.1

theorem backup_ok (s : RepoState) (d : StoreData) (now : Int)
    (hopen : s.dbOpen = true) (hd : KeystrokeRepository.activeData s = some d)
    (hneq : ¬ (s.dbPath ++ ".backup." ++ String.mk (intToChars now)) = s.dbPath) :
    KeystrokeRepository.backup s now =
      .ok (s.dbPath ++ ".backup." ++ String.mk (intToChars now),
        ({ s with fs := (fsSet
          (fsSet s.fs (s.dbPath ++ ".backup." ++ String.mk (intToChars now)) d) s.dbPath
          ({ d with backups := (d.backups ++
            [(s.dbPath ++ ".backup." ++ String.mk (intToChars now), now)]) })) })) := by
  rw [KeystrokeRepository.backup, if_neg (by simp [hopen]), hd]
  dsimp only
  rw [fsGet_fsSet_other _ _ _ _ hneq]
  rw [show fsGet s.fs s.dbPath = some d from hd]

theorem clear_ok (s : RepoState) (d : StoreData)
    (hopen : s.dbOpen = true) (hd : KeystrokeRepository.activeData s = some d) :
    KeystrokeRepository.clear s =
      .ok ({ s with fs := fsSet s.fs s.dbPath ({ d with rows := [] }) }) := by
  rw [KeystrokeRepository.clear, if_neg (by simp [hopen]), hd]

theorem restore_ok (s : RepoState) (snap : StoreData) (p : String)
    (hopen : s.dbOpen = true) (hp : fsGet s.fs p = some snap) :
    KeystrokeRepository.restore s p =
      .ok ({ s with fs := fsSet s.fs s.dbPath snap, dbOpen := true }) := by
  rw [KeystrokeRepository.restore, if_neg (by simp [hopen]), hp]
  dsimp only
  rw [KeystrokeRepository.initDb]
  dsimp only
  rw [fsGet_fsSet_same]

/-- C6: `backup()` then `clear()` then `restore(path)` with the returned
path reproduces the pre-clear record set exactly: the restored active
store's rows equal the rows that were live when the backup was taken. -/
theorem backup_clear_restore_roundtrip (s : RepoState) (d : StoreData) (now : Int)
    (hopen : s.dbOpen = true) (hd : KeystrokeRepository.activeData s = some d) :
    ∃ p s1 s2 s3 d3,
      KeystrokeRepository.backup s now = .ok (p, s1) ∧
      KeystrokeRepository.clear s1 = .ok s2 ∧
      KeystrokeRepository.restore s2 p = .ok s3 ∧
      KeystrokeRepository.activeData s3 = some d3 ∧
      d3.rows = d.rows := by
  have hneq : ¬ (s.dbPath ++ ".backup." ++ String.mk (intToChars now)) = s.dbPath := by
    intro hcontra
    have hlen := congrArg String.length hcontra
    rw [String.length_append, String.length_append] at hlen
    have h8 : (".backup." : String).length = 8 := rfl
    omega
  obtain ⟨p, s1, hb, hpne, hopen1, hget1, d1, hd1, hrows1⟩ :
      ∃ p s1, KeystrokeRepository.backup s now = .ok (p, s1) ∧
        ¬ p = s1.dbPath ∧ s1.dbOpen = true ∧ fsGet s1.fs p = some d ∧
        ∃ d1, KeystrokeRepository.activeData s1 = some d1 ∧ d1.rows = d.rows := by
    refine ⟨_, _, backup_ok s d now hopen hd hneq, hneq, hopen, ?_,
      ({ d with backups := (d.backups ++
        [(s.dbPath ++ ".backup." ++ String.mk (intToChars now), now)]) }), ?_, rfl⟩
    · dsimp only
      rw [fsGet_fsSet_other _ _ _ _ (fun h => hneq h.symm)]
      exact fsGet_fsSet_same _ _ _
    · dsimp only [KeystrokeRepository.activeData]
      exact fsGet_fsSet_same _ _ _
  have hc := clear_ok s1 d1 hopen1 hd1
  have hget2 : fsGet (fsSet s1.fs s1.dbPath ({ d1 with rows := ([] : List Row) })) p
      = some d := by
    rw [fsGet_fsSet_other _ _ _ _ (fun h => hpne h.symm)]
    exact hget1
  refine ⟨p, s1, _, _, d, hb, hc, restore_ok _ d p hopen1 hget2, ?_, hrows1.symm ▸ rfl⟩
  · dsimp only [KeystrokeRepository.activeData]
    exact fsGet_fsSet_same _ _ _

theorem backup_clear_restore_roundtrip_witness :
    repoEmpty.dbOpen = true ∧
    KeystrokeRepository.activeData repoEmpty = some emptyStore ∧
    (∃ p s1 s2 s3 d3,
      KeystrokeRepository.backup repoEmpty 5 = .ok (p, s1) ∧
      KeystrokeRepository.clear s1 = .ok s2 ∧
      KeystrokeRepository.restore s2 p = .ok s3 ∧
      KeystrokeRepository.activeData s3 = some d3 ∧
      d3.rows = emptyStore.rows) :=
  ⟨by decide, by decide,
    backup_clear_restore_roundtrip repoEmpty emptyStore 5 (by decide) (by decide)⟩

/-- C2: the persisted `date`/`hour` fields are UTC-derived (shown here on a
concrete saved record), and the `day` query is timezone-independent, but
the claimed timezone independence of every period query is FALSE: the
`month` and `year` branches derive the anchor year/month with local-time
getters, so the same store and arguments give different results under a
different machine timezone (UTC vs UTC-1 shown). -/
theorem getStatsByPeriod_timezone_divergence :
    (((KeystrokeRepository.activeData
        ((KeystrokeRepository.save repoEmpty [ksA]).toOption.getD repoEmpty)).getD
          emptyStore).rows.map (fun r => (r.date, r.hour)) = [("2024-01-01", 0)]) ∧
    (∀ (tz : Int) (s : RepoState) (dateMs : Int),
      KeystrokeRepository.getStatsByPeriod tz s .day dateMs =
      KeystrokeRepository.getStatsByPeriod 0 s .day dateMs) ∧
    (KeystrokeRepository.getStatsByPeriod 0
        ((KeystrokeRepository.save repoEmpty [ksA]).toOption.getD repoEmpty)
        .month 1704067200000 = .ok [⟨"A", 1⟩] ∧
     KeystrokeRepository.getStatsByPeriod (-3600000)
        ((KeystrokeRepository.save repoEmpty [ksA]).toOption.getD repoEmpty)
        .month 1704067200000 = .ok []) ∧
    (KeystrokeRepository.getStatsByPeriod 0
        ((KeystrokeRepository.save repoEmpty [ksA]).toOption.getD repoEmpty)
        .year 1704067200000 = .ok [⟨"A", 1⟩] ∧
     KeystrokeRepository.getStatsByPeriod (-3600000)
        ((KeystrokeRepository.save repoEmpty [ksA]).toOption.getD repoEmpty)
        .year 1704067200000 = .ok []) :=
  ⟨by decide, fun _ _ _ => rfl, ⟨by decide, by decide⟩, ⟨by decide, by decide⟩⟩

/-! ## Claims: aggregation identities (breakdown sums and trend sums) -/

theorem trendTotal_eq_map_sum (l : List (Int × Nat)) :
    trendTotal l = (l.map (fun e => e.2)).sum := by
  have aux : ∀ (l : List (Int × Nat)) (a : Nat),
      l.foldl (fun sum e => sum + e.2) a = a + (l.map (fun e => e.2)).sum := by
    intro l
    induction l with
    | nil => intro a; simp
    | cons x xs ih => intro a; simp [ih]; omega
  simpa using aux l 0

theorem sumCounts_sortGroup (l : List Row) :
    sumCounts (sortByCountDesc (groupCounts l)) = l.length := by
  rw [sumCounts_perm (perm_sortByCountDesc (groupCounts l))]
  exact groupCounts_sum l

theorem mapM_ok_map {α β : Type} (f : α → Except DbError β) (g : α → β) (l : List α)
    (h : ∀ a ∈ l, f a = .ok (g a)) : l.mapM f = .ok (l.map g) := by
  induction l with
  | nil => rfl
  | cons x xs ih =>
    rw [List.mapM_cons, h x (List.mem_cons_self x xs),
      ih (fun a ha => h a (List.mem_cons_of_mem x ha))]
    rfl

theorem daysInMonthTable_bounds (y m : Int) :
    28 ≤ daysInMonthTable y m ∧ daysInMonthTable y m ≤ 31 := by
  simp only [daysInMonthTable]
  split_ifs <;> omega

theorem ymdOfDay_year_le (z : Int) (h0 : 0 ≤ z) (h1 : z ≤ 2932896) :
    (ymdOfDay z).1 ≤ 9999 := by
  obtain ⟨y, dwy, hy, hd1, hd2, rfl⟩ := ymdOfDay_split z h0
  rw [ymdOfDay_eq y dwy hy hd1 hd2]
  dsimp only
  by_contra hc
  have h10 : dayFromYear 10000 = 2932897 := dayFromYear_10000
  have := dayFromYear_mono (show (10000 : Int) ≤ y by omega)
  omega

/-- Dates that `save` can have persisted: the UTC rendering of a real
in-range timestamp. -/
def savedDate (r : Row) : Prop :=
  ∃ ts : Int, 0 ≤ ts ∧ ts < 253402300800000 ∧ r.date = toISODate ts

theorem toISODate_iso (ts : Int) (h0 : 0 ≤ ts) (h1 : ts < 253402300800000) :
    ∃ y m dd : Nat, 1970 ≤ y ∧ y ≤ 9999 ∧ 1 ≤ m ∧ m ≤ 12 ∧ 1 ≤ dd ∧ dd ≤ 31 ∧
      ((dd : Int) ≤ daysInMonthTable (y : Int) (m : Int)) ∧
      toISODate ts = String.mk (isoChars y m dd) := by
  have hz0 : 0 ≤ dayOfMs ts := by simp only [dayOfMs, msPerDay]; omega
  have hz1 : dayOfMs ts ≤ 2932896 := by simp only [dayOfMs, msPerDay]; omega
  have hv := ymdOfDay_valid (dayOfMs ts) hz0
  have hy9 := ymdOfDay_year_le (dayOfMs ts) hz0 hz1
  have htab := daysInMonthTable_bounds (ymdOfDay (dayOfMs ts)).1 (ymdOfDay (dayOfMs ts)).2.1
  refine ⟨(ymdOfDay (dayOfMs ts)).1.toNat, (ymdOfDay (dayOfMs ts)).2.1.toNat,
    (ymdOfDay (dayOfMs ts)).2.2.toNat, by omega, by omega, by omega, by omega, by omega,
    by omega, ?_, rfl⟩
  have hyc : (((ymdOfDay (dayOfMs ts)).1.toNat : Int)) = (ymdOfDay (dayOfMs ts)).1 := by omega
  have hmc : (((ymdOfDay (dayOfMs ts)).2.1.toNat : Int)) = (ymdOfDay (dayOfMs ts)).2.1 := by
    omega
  have hdc : (((ymdOfDay (dayOfMs ts)).2.2.toNat : Int)) = (ymdOfDay (dayOfMs ts)).2.2 := by
    omega
  rw [hyc, hmc, hdc]
  exact hv.2.2.2.2

theorem getFullYear_newDateMs (tz Y M : Int) (hY : 1970 ≤ Y) (hM1 : 1 ≤ M) (hM2 : M ≤ 12) :
    getFullYear tz (newDateMs tz Y (M - 1) 1) = Y ∧
    getMonthIdx tz (newDateMs tz Y (M - 1) 1) + 1 = M := by
  have h2 := ymdOfDay_makeDay Y (M - 1) 1 hY (by omega) (by omega) (by omega)
    (by have := (daysInMonthTable_bounds Y (M - 1 + 1)).1; omega)
  constructor
  · rw [getFullYear, ymdOfMs_local_newDateMs, h2]
  · rw [getMonthIdx, ymdOfMs_local_newDateMs, h2]
    dsimp only
    omega

theorem getDate_newDateMs_zero (tz Y M : Int) (hY : 1970 ≤ Y) (hM1 : 1 ≤ M) (hM2 : M ≤ 12) :
    getDate tz (newDateMs tz Y M 0) = daysInMonthTable Y M := by
  rw [getDate, ymdOfMs_local_newDateMs, ymdOfDay_makeDay_zero Y M hY hM1 hM2]

theorem getFullYear_dateUTCms (tz Y m0 : Int) (h0 : 0 ≤ tz) (h1 : tz < msPerDay)
    (hY : 1970 ≤ Y) (hm0 : 0 ≤ m0) (hm1 : m0 ≤ 11) :
    getFullYear tz (dateUTCms Y m0 1) = Y ∧
    getMonthIdx tz (dateUTCms Y m0 1) + 1 = m0 + 1 := by
  have h2 := ymdOfDay_makeDay Y m0 1 hY hm0 hm1 (by omega)
    (by have := (daysInMonthTable_bounds Y (m0 + 1)).1; omega)
  constructor
  · rw [getFullYear, ymdOfMs_local_dateUTCms _ _ _ _ h0 h1, h2]
  · rw [getMonthIdx, ymdOfMs_local_dateUTCms _ _ _ _ h0 h1, h2]
    dsimp only
    omega

theorem day_query_anchor (tz : Int) (s : RepoState) (d : StoreData) (Y M dd : Int)
    (ho : s.dbOpen = true) (hd : KeystrokeRepository.activeData s = some d)
    (hY : 1970 ≤ Y) (hM1 : 1 ≤ M) (hM2 : M ≤ 12) (hd1 : 1 ≤ dd)
    (hd2 : dd ≤ daysInMonthTable Y M) :
    KeystrokeRepository.getStatsByPeriod tz s .day (dateUTCms Y (M - 1) dd) =
      .ok (sortByCountDesc (groupCounts (d.rows.filter (fun r =>
        r.date == String.mk (isoChars Y.toNat M.toNat dd.toNat))))) := by
  have hM' : M - 1 + 1 = M := by omega
  have h2 := ymdOfDay_makeDay Y (M - 1) dd hY (by omega) (by omega) hd1
    (by rw [hM']; exact hd2)
  rw [hM'] at h2
  have hiso : toISODate (dateUTCms Y (M - 1) dd) =
      String.mk (isoChars Y.toNat M.toNat dd.toNat) := by
    rw [toISODate]
    rw [ymdOfMs_dateUTCms, h2]
  rw [getStatsByPeriod_day_eq tz s _ d ho hd, hiso]

theorem month_query_eq (tz : Int) (s : RepoState) (d : StoreData) (dateMs Y M : Int)
    (ho : s.dbOpen = true) (hd : KeystrokeRepository.activeData s = some d)
    (hY1 : 1970 ≤ Y) (hY2 : Y ≤ 9999) (hM1 : 1 ≤ M) (hM2 : M ≤ 12)
    (hyr : getFullYear tz dateMs = Y) (hmo : getMonthIdx tz dateMs + 1 = M) :
    KeystrokeRepository.getStatsByPeriod tz s .month dateMs =
      .ok (sortByCountDesc (groupCounts (d.rows.filter (fun r =>
        sqliteTextLe (String.mk (isoChars Y.toNat M.toNat 1)) r.date &&
        sqliteTextLe r.date (String.mk (isoChars Y.toNat M.toNat
          (daysInMonthTable Y M).toNat)))))) := by
  have htab := daysInMonthTable_bounds Y M
  rw [getStatsByPeriod_month_eq tz s dateMs d ho hd, hyr, hmo,
    getDate_newDateMs_zero tz Y M hY1 hM1 hM2,
    monthStartStr Y M (by omega) hY2 hM1 hM2,
    monthEndStr Y M (daysInMonthTable Y M) (by omega) hY2 hM1 hM2 (by omega) (by omega)]

theorem year_query_eq (tz : Int) (s : RepoState) (d : StoreData) (dateMs Y : Int)
    (ho : s.dbOpen = true) (hd : KeystrokeRepository.activeData s = some d)
    (hY1 : 1970 ≤ Y) (hY2 : Y ≤ 9999)
    (hyr : getFullYear tz dateMs = Y) :
    KeystrokeRepository.getStatsByPeriod tz s .year dateMs =
      .ok (sortByCountDesc (groupCounts (d.rows.filter (fun r =>
        sqliteTextLe (String.mk (isoChars Y.toNat 1 1)) r.date &&
        sqliteTextLe r.date (String.mk (isoChars Y.toNat 12 31)))))) := by
  rw [getStatsByPeriod_year_eq tz s dateMs d ho hd, hyr,
    yearStartStr Y (by omega) hY2, yearEndStr Y (by omega) hY2]

theorem month_pred_iff (Y M : Int) (hY1 : 1970 ≤ Y) (hY2 : Y ≤ 9999) (hM1 : 1 ≤ M)
    (hM2 : M ≤ 12) (y m dd : Nat) (hy1 : 1970 ≤ y) (hy2 : y ≤ 9999) (hm1 : 1 ≤ m)
    (hm2 : m ≤ 12) (hd1 : 1 ≤ dd) (hd2 : dd ≤ 31) :
    (sqliteTextLe (String.mk (isoChars Y.toNat M.toNat 1)) (String.mk (isoChars y m dd)) &&
     sqliteTextLe (String.mk (isoChars y m dd))
       (String.mk (isoChars Y.toNat M.toNat (daysInMonthTable Y M).toNat))) = true ↔
      (y = Y.toNat ∧ m = M.toNat ∧ 1 ≤ dd ∧ (dd : Int) ≤ daysInMonthTable Y M) := by
  have htab := daysInMonthTable_bounds Y M
  rw [Bool.and_eq_true, sqliteTextLe_mk, sqliteTextLe_mk,
    memLe_iso_iff Y.toNat M.toNat 1 y m dd (by omega) (by omega) (by omega) (by omega)
      (by omega) (by omega),
    memLe_iso_iff y m dd Y.toNat M.toNat (daysInMonthTable Y M).toNat (by omega) (by omega)
      (by omega) (by omega) (by omega) (by omega)]
  constructor
  · intro h
    omega
  · intro h
    omega

theorem year_pred_iff (Y : Int) (hY1 : 1970 ≤ Y) (hY2 : Y ≤ 9999)
    (y m dd : Nat) (hy1 : 1970 ≤ y) (hy2 : y ≤ 9999) (hm1 : 1 ≤ m)
    (hm2 : m ≤ 12) (hd1 : 1 ≤ dd) (hd2 : dd ≤ 31) :
    (sqliteTextLe (String.mk (isoChars Y.toNat 1 1)) (String.mk (isoChars y m dd)) &&
     sqliteTextLe (String.mk (isoChars y m dd)) (String.mk (isoChars Y.toNat 12 31))) = true ↔
      y = Y.toNat := by
  rw [Bool.and_eq_true, sqliteTextLe_mk, sqliteTextLe_mk,
    memLe_iso_iff Y.toNat 1 1 y m dd (by omega) (by omega) (by omega) (by omega)
      (by omega) (by omega),
    memLe_iso_iff y m dd Y.toNat 12 31 (by omega) (by omega) (by omega) (by omega)
      (by omega) (by omega)]
  constructor
  · intro h
    omega
  · intro h
    omega

theorem day_pred_iff (Yn Mn j : Nat) (y m dd : Nat)
    (hY : Yn < 10000) (hM : Mn < 100) (hj : j < 100)
    (hy : y < 10000) (hm : m < 100) (hd : dd < 100) :
    (String.mk (isoChars y m dd) == String.mk (isoChars Yn Mn j)) = true ↔
      (y = Yn ∧ m = Mn ∧ dd = j) := by
  rw [beq_iff_eq]
  rw [show (String.mk (isoChars y m dd) = String.mk (isoChars Yn Mn j)) ↔
      isoChars y m dd = isoChars Yn Mn j from
    ⟨fun h => congrArg String.data h, fun h => congrArg String.mk h⟩]
  exact isoChars_inj y m dd Yn Mn j hy hm hd hY hM hj

theorem month_count_partition (rows : List Row) (Y M : Int)
    (hwf : ∀ r ∈ rows, savedDate r)
    (hY1 : 1970 ≤ Y) (hY2 : Y ≤ 9999) (hM1 : 1 ≤ M) (hM2 : M ≤ 12) :
    (rows.filter (fun r =>
        sqliteTextLe (String.mk (isoChars Y.toNat M.toNat 1)) r.date &&
        sqliteTextLe r.date (String.mk (isoChars Y.toNat M.toNat
          (daysInMonthTable Y M).toNat)))).length =
      ((List.range (daysInMonthTable Y M).toNat).map (fun j =>
        (rows.filter (fun r =>
          r.date == String.mk (isoChars Y.toNat M.toNat (j + 1)))).length)).sum := by
  have htab := daysInMonthTable_bounds Y M
  apply length_filter_eq_sum_range
  · intro x hx
    obtain ⟨ts, ht0, ht1, hdate⟩ := hwf x hx
    obtain ⟨y, m, dd, hy1, hy2, hm1, hm2, hdd1, hdd2, hddT, hiso⟩ := toISODate_iso ts ht0 ht1
    rw [hdate, hiso,
      month_pred_iff Y M hY1 hY2 hM1 hM2 y m dd hy1 hy2 hm1 hm2 hdd1 hdd2]
    constructor
    · rintro ⟨rfl, rfl, h1, h2⟩
      refine ⟨dd - 1, by omega, ?_⟩
      rw [day_pred_iff Y.toNat M.toNat (dd - 1 + 1) Y.toNat M.toNat dd (by omega) (by omega)
        (by omega) (by omega) (by omega) (by omega)]
      exact ⟨rfl, rfl, by omega⟩
    · rintro ⟨j, hj, hg⟩
      rw [day_pred_iff Y.toNat M.toNat (j + 1) y m dd (by omega) (by omega) (by omega)
        (by omega) (by omega) (by omega)] at hg
      obtain ⟨rfl, rfl, rfl⟩ := hg
      exact ⟨rfl, rfl, by omega, by omega⟩
  · intro x hx j1 j2 hj1 hj2 hg1 hg2
    obtain ⟨ts, ht0, ht1, hdate⟩ := hwf x hx
    obtain ⟨y, m, dd, hy1, hy2, hm1, hm2, hdd1, hdd2, hddT, hiso⟩ := toISODate_iso ts ht0 ht1
    rw [hdate, hiso] at hg1 hg2
    rw [day_pred_iff Y.toNat M.toNat (j1 + 1) y m dd (by omega) (by omega) (by omega)
      (by omega) (by omega) (by omega)] at hg1
    rw [day_pred_iff Y.toNat M.toNat (j2 + 1) y m dd (by omega) (by omega) (by omega)
      (by omega) (by omega) (by omega)] at hg2
    omega

theorem year_count_partition (rows : List Row) (Y : Int)
    (hwf : ∀ r ∈ rows, savedDate r) (hY1 : 1970 ≤ Y) (hY2 : Y ≤ 9999) :
    (rows.filter (fun r =>
        sqliteTextLe (String.mk (isoChars Y.toNat 1 1)) r.date &&
        sqliteTextLe r.date (String.mk (isoChars Y.toNat 12 31)))).length =
      ((List.range 12).map (fun j =>
        (rows.filter (fun r =>
          sqliteTextLe (String.mk (isoChars Y.toNat ((j + 1 : Nat) : Int).toNat 1)) r.date &&
          sqliteTextLe r.date (String.mk (isoChars Y.toNat ((j + 1 : Nat) : Int).toNat
            (daysInMonthTable Y ((j + 1 : Nat) : Int)).toNat)))).length)).sum := by
  apply length_filter_eq_sum_range
  · intro x hx
    obtain ⟨ts, ht0, ht1, hdate⟩ := hwf x hx
    obtain ⟨y, m, dd, hy1, hy2, hm1, hm2, hdd1, hdd2, hddT, hiso⟩ := toISODate_iso ts ht0 ht1
    rw [hdate, hiso,
      year_pred_iff Y hY1 hY2 y m dd hy1 hy2 hm1 hm2 hdd1 hdd2]
    constructor
    · intro hyY
      refine ⟨m - 1, by omega, ?_⟩
      rw [month_pred_iff Y ((m - 1 + 1 : Nat) : Int) hY1 hY2 (by omega) (by omega)
        y m dd hy1 hy2 hm1 hm2 hdd1 hdd2]
      have e1 : ((y : Nat) : Int) = Y := by omega
      have e2 : ((m - 1 + 1 : Nat) : Int) = (m : Int) := by omega
      rw [e1] at hddT
      rw [e2]
      exact ⟨hyY, by omega, by omega, hddT⟩
    · rintro ⟨j, hj, hg⟩
      rw [month_pred_iff Y ((j + 1 : Nat) : Int) hY1 hY2 (by omega) (by omega)
        y m dd hy1 hy2 hm1 hm2 hdd1 hdd2] at hg
      omega
  · intro x hx j1 j2 hj1 hj2 hg1 hg2
    obtain ⟨ts, ht0, ht1, hdate⟩ := hwf x hx
    obtain ⟨y, m, dd, hy1, hy2, hm1, hm2, hdd1, hdd2, hddT, hiso⟩ := toISODate_iso ts ht0 ht1
    rw [hdate, hiso] at hg1 hg2
    rw [month_pred_iff Y ((j1 + 1 : Nat) : Int) hY1 hY2 (by omega) (by omega)
      y m dd hy1 hy2 hm1 hm2 hdd1 hdd2] at hg1
    rw [month_pred_iff Y ((j2 + 1 : Nat) : Int) hY1 hY2 (by omega) (by omega)
      y m dd hy1 hy2 hm1 hm2 hdd1 hdd2] at hg2
    omega

theorem getDailyTrendForMonth_eq (tz : Int) (repo : RepoState) (d : StoreData) (Y M : Int)
    (ho : repo.dbOpen = true) (hd : KeystrokeRepository.activeData repo = some d)
    (hY1 : 1970 ≤ Y) (hM1 : 1 ≤ M) (hM2 : M ≤ 12) :
    StatisticsService.getDailyTrendForMonth tz repo Y M =
      .ok ((List.range (daysInMonthTable Y M).toNat).map (fun i =>
        (dateUTCms Y (M - 1) ((i + 1 : Nat) : Int),
          (d.rows.filter (fun r =>
            r.date == String.mk (isoChars Y.toNat M.toNat (i + 1)))).length))) := by
  rw [StatisticsService.getDailyTrendForMonth]
  rw [getDate_newDateMs_zero tz Y M hY1 hM1 hM2]
  apply mapM_ok_map
  intro i hi
  rw [List.mem_range] at hi
  have htab := daysInMonthTable_bounds Y M
  dsimp only
  rw [day_query_anchor tz repo d Y M ((i + 1 : Nat) : Int) ho hd hY1 hM1 hM2 (by omega)
    (by omega)]
  have hc : (((i + 1 : Nat) : Int)).toNat = i + 1 := by omega
  simp only [Except.map]
  rw [hc, sumCounts_sortGroup]

theorem getMonthlyTrendForYear_eq (tz : Int) (repo : RepoState) (d : StoreData) (Y : Int)
    (htz0 : 0 ≤ tz) (htz1 : tz < msPerDay)
    (ho : repo.dbOpen = true) (hd : KeystrokeRepository.activeData repo = some d)
    (hY1 : 1970 ≤ Y) (hY2 : Y ≤ 9999) :
    StatisticsService.getMonthlyTrendForYear tz repo Y =
      .ok ((List.range 12).map (fun i =>
        (((i + 1 : Nat) : Int),
          (d.rows.filter (fun r =>
            sqliteTextLe (String.mk (isoChars Y.toNat ((i + 1 : Nat) : Int).toNat 1)) r.date &&
            sqliteTextLe r.date (String.mk (isoChars Y.toNat ((i + 1 : Nat) : Int).toNat
              (daysInMonthTable Y ((i + 1 : Nat) : Int)).toNat)))).length))) := by
  rw [StatisticsService.getMonthlyTrendForYear]
  apply mapM_ok_map
  intro i hi
  rw [List.mem_range] at hi
  dsimp only
  have hy := getFullYear_dateUTCms tz Y (((i + 1 : Nat) : Int) - 1) htz0 htz1 hY1 (by omega)
    (by omega)
  have hmo : getMonthIdx tz (dateUTCms Y (((i + 1 : Nat) : Int) - 1) 1) + 1 =
      ((i + 1 : Nat) : Int) := by
    have h2 := hy.2
    omega
  rw [month_query_eq tz repo d (dateUTCms Y (((i + 1 : Nat) : Int) - 1) 1) Y
    ((i + 1 : Nat) : Int) ho hd hY1 hY2 (by omega) (by omega) hy.1 hmo]
  simp only [Except.map]
  rw [sumCounts_sortGroup]

theorem getDailyStats_identity (tz : Int) (repo : RepoState) (now dateMs : Int) (d : StoreData)
    (ho : repo.dbOpen = true) (hd : KeystrokeRepository.activeData repo = some d) :
    ∃ v, (StatisticsService.getDailyStats tz repo now [] dateMs).result = .ok v ∧
      v.totalKeystrokes = sumCounts v.keyBreakdown := by
  rw [StatisticsService.getDailyStats]
  dsimp only
  rw [show getFromCache now ([] : Cache) ("daily:" ++ String.mk (intToChars
    (dateUTCms (getUTCFullYear dateMs) (getUTCMonthIdx dateMs) (getUTCDate dateMs)))) =
    (none, ([] : Cache)) from rfl]
  dsimp only
  rw [getStatsByPeriod_day_eq tz repo _ d ho hd]
  exact ⟨_, rfl, rfl⟩

theorem getMonthlyStats_identities (tz : Int) (repo : RepoState) (now : Int) (d : StoreData)
    (Y M : Int) (ho : repo.dbOpen = true) (hd : KeystrokeRepository.activeData repo = some d)
    (hwf : ∀ r ∈ d.rows, savedDate r)
    (hY1 : 1970 ≤ Y) (hY2 : Y ≤ 9999) (hM1 : 1 ≤ M) (hM2 : M ≤ 12) :
    ∃ v, (StatisticsService.getMonthlyStats tz repo now [] Y M).result = .ok v ∧
      v.totalKeystrokes = sumCounts v.keyBreakdown ∧
      trendTotal v.dailyTrend = v.totalKeystrokes := by
  have hgY := getFullYear_newDateMs tz Y M hY1 hM1 hM2
  have hmq := month_query_eq tz repo d (newDateMs tz Y (M - 1) 1) Y M ho hd hY1 hY2 hM1 hM2
    hgY.1 hgY.2
  have htr := getDailyTrendForMonth_eq tz repo d Y M ho hd hY1 hM1 hM2
  rw [StatisticsService.getMonthlyStats, if_neg (by omega)]
  dsimp only
  rw [show getFromCache now ([] : Cache) ("monthly:" ++ String.mk (intToChars Y) ++ ":" ++
    String.mk (intToChars M)) = (none, ([] : Cache)) from rfl]
  dsimp only
  rw [hmq]
  dsimp only
  rw [htr]
  dsimp only
  refine ⟨_, rfl, rfl, ?_⟩
  dsimp only
  rw [sumCounts_sortGroup, trendTotal_eq_map_sum, List.map_map,
    month_count_partition d.rows Y M hwf hY1 hY2 hM1 hM2]
  rfl

theorem getYearlyStats_identities (tz : Int) (repo : RepoState) (now : Int) (d : StoreData)
    (Y : Int) (htz0 : 0 ≤ tz) (htz1 : tz < msPerDay)
    (ho : repo.dbOpen = true) (hd : KeystrokeRepository.activeData repo = some d)
    (hwf : ∀ r ∈ d.rows, savedDate r)
    (hY1 : 1970 ≤ Y) (hY2 : Y ≤ 9999) :
    ∃ v, (StatisticsService.getYearlyStats tz repo now [] Y).result = .ok v ∧
      v.totalKeystrokes = sumCounts v.keyBreakdown ∧
      trendTotal v.monthlyTrend = v.totalKeystrokes := by
  have h1 := (getFullYear_newDateMs tz Y 1 hY1 le_rfl (by omega)).1
  rw [show (1 : Int) - 1 = 0 from by omega] at h1
  have hyq := year_query_eq tz repo d (newDateMs tz Y 0 1) Y ho hd hY1 hY2 h1
  have htr := getMonthlyTrendForYear_eq tz repo d Y htz0 htz1 ho hd hY1 hY2
  rw [StatisticsService.getYearlyStats]
  dsimp only
  rw [show getFromCache now ([] : Cache) ("yearly:" ++ String.mk (intToChars Y)) =
    (none, ([] : Cache)) from rfl]
  dsimp only
  rw [hyq]
  dsimp only
  rw [htr]
  dsimp only
  refine ⟨_, rfl, rfl, ?_⟩
  dsimp only
  rw [sumCounts_sortGroup, trendTotal_eq_map_sum, List.map_map,
    year_count_partition d.rows Y hwf hY1 hY2]
  rfl

/-- C1 counterexample: with the machine timezone at UTC-1, a store holding
one keystroke from 2024-12-15 (UTC) gives a 2024 yearly result whose
`totalKeystrokes` is 1 while its `monthlyTrend` counts sum to 0: the trend's
`Date.UTC` month anchors are read back with local getters and slide to
Dec 2023 .. Nov 2024, missing the December 2024 record. -/
theorem aggregation_identities_cex :
    ((StatisticsService.getYearlyStats (-3600000)
      ((KeystrokeRepository.save repoEmpty [ksDec]).toOption.getD repoEmpty)
      0 [] 2024).result.map
        (fun v => (v.totalKeystrokes, trendTotal v.monthlyTrend))) = .ok (1, 0) := by decide

/-- C1 (amended): on a fresh cache, for any store of `save`-produced rows
and any in-range year/month, `getDailyStats`, `getMonthlyStats` and
`getYearlyStats` return `totalKeystrokes` equal to the sum of the
`keyBreakdown` counts, the monthly `dailyTrend` counts sum to the monthly
total, and — provided the machine timezone offset is in `[0, 24h)` (east
of or at UTC; for offsets west of UTC the yearly identity fails, see the
counterexample) — the yearly `monthlyTrend` counts sum to the yearly
total. -/
theorem aggregation_identities (tz : Int) (repo : RepoState) (now : Int) (d : StoreData)
    (dateMs Y M : Int)
    (htz0 : 0 ≤ tz) (htz1 : tz < msPerDay)
    (ho : repo.dbOpen = true) (hd : KeystrokeRepository.activeData repo = some d)
    (hwf : ∀ r ∈ d.rows, savedDate r)
    (hY1 : 1970 ≤ Y) (hY2 : Y ≤ 9999) (hM1 : 1 ≤ M) (hM2 : M ≤ 12) :
    (∃ v, (StatisticsService.getDailyStats tz repo now [] dateMs).result = .ok v ∧
      v.totalKeystrokes = sumCounts v.keyBreakdown) ∧
    (∃ v, (StatisticsService.getMonthlyStats tz repo now [] Y M).result = .ok v ∧
      v.totalKeystrokes = sumCounts v.keyBreakdown ∧
      trendTotal v.dailyTrend = v.totalKeystrokes) ∧
    (∃ v, (StatisticsService.getYearlyStats tz repo now [] Y).result = .ok v ∧
      v.totalKeystrokes = sumCounts v.keyBreakdown ∧
      trendTotal v.monthlyTrend = v.totalKeystrokes) :=
  ⟨getDailyStats_identity tz repo now dateMs d ho hd,
   getMonthlyStats_identities tz repo now d Y M ho hd hwf hY1 hY2 hM1 hM2,
   getYearlyStats_identities tz repo now d Y htz0 htz1 ho hd hwf hY1 hY2⟩

theorem aggregation_identities_witness :
    (∃ v, (StatisticsService.getDailyStats 0
        ((KeystrokeRepository.save repoEmpty [ksA]).toOption.getD repoEmpty) 0 []
        1704067200000).result = .ok v ∧
      v.totalKeystrokes = sumCounts v.keyBreakdown) ∧
    (∃ v, (StatisticsService.getMonthlyStats 0
        ((KeystrokeRepository.save repoEmpty [ksA]).toOption.getD repoEmpty) 0 []
        2024 1).result = .ok v ∧
      v.totalKeystrokes = sumCounts v.keyBreakdown ∧
      trendTotal v.dailyTrend = v.totalKeystrokes) ∧
    (∃ v, (StatisticsService.getYearlyStats 0
        ((KeystrokeRepository.save repoEmpty [ksA]).toOption.getD repoEmpty) 0 []
        2024).result = .ok v ∧
      v.totalKeystrokes = sumCounts v.keyBreakdown ∧
      trendTotal v.monthlyTrend = v.totalKeystrokes) := by
  have hwf : ∀ r ∈ ((KeystrokeRepository.activeData
      ((KeystrokeRepository.save repoEmpty [ksA]).toOption.getD repoEmpty)).getD
        emptyStore).rows, savedDate r := by
    intro r hr
    have hrows : ((KeystrokeRepository.activeData
        ((KeystrokeRepository.save repoEmpty [ksA]).toOption.getD repoEmpty)).getD
          emptyStore).rows = [⟨1, 65, "A", 1704067200000, "2024-01-01", 0⟩] := by decide
    rw [hrows, List.mem_singleton] at hr
    subst hr
    exact ⟨1704067200000, by decide, by decide, by decide⟩
  exact aggregation_identities 0
    ((KeystrokeRepository.save repoEmpty [ksA]).toOption.getD repoEmpty) 0
    ((KeystrokeRepository.activeData
      ((KeystrokeRepository.save repoEmpty [ksA]).toOption.getD repoEmpty)).getD emptyStore)
    1704067200000 2024 1
    (by decide) (by decide) (by decide) (by decide) hwf
    (by decide) (by decide) (by decide) (by decide)
